import Mathlib

set_option maxRecDepth 16384

/-!
Verification of the runtime data-provenance engine of the budget-tracker
SST-detection system.

The development shallowly embeds the Python sources:
* `budget_tracker/runtime_tracking/utils.py` (`create_fingerprint`,
  `flatten_payload`),
* `budget_tracker/runtime_tracking/context.py` (`RequestContext`),
* `budget_tracker/runtime_tracking/tracker.py` (`GlobalRegistry`,
  `RuntimeTracker`),
* `budget_tracker/runtime_tracking/storage.py` (`ProvenanceStorage`),
* `budget_tracker/runtime_tracking/requests_patch.py` (`instrumented_request`),
* `budget_tracker/runtime_tracking/sqlalchemy_patch.py` (`_process_instance`,
  `_before_flush`),
* `budget_tracker/runtime_tracking/flask_hooks.py` (`_rt_before_request`),
* `budget_tracker/provenance_utils.py` (`detect_suspicious_sharing`).

Python values handled by the engine (the fingerprint contract's input domain:
trees of scalars, lists/tuples, and string-keyed maps) are embedded as `PyVal`.
`json.dumps` is embedded as `jsonDumps` (with and without `sort_keys=True`),
and SHA-256 is implemented in full so fingerprints are the genuine digests.
Wall-clock timestamps (`created_at`) and uuids are inherently effectful; they
are threaded as explicit string/counter parameters where the code reads them.
-/

/-- A Python value in the fingerprint engine's input domain:
scalars (`None`, `bool`, `int`, `str`), lists, tuples, and
string-keyed dicts (dict entries in insertion order, as in Python). -/
inductive PyVal where
  | none : PyVal
  | bool : Bool → PyVal
  | int : Int → PyVal
  | str : String → PyVal
  | list : List PyVal → PyVal
  | tuple : List PyVal → PyVal
  | dict : List (String × PyVal) → PyVal

/-- Stable insertion: `x` is placed before the first element `y` with
`le x y = false`... more precisely after every prefix element `y` with
`¬ le x y`; used to model Python's stable `sorted`. -/
def insertBy {α : Type} (le : α → α → Bool) (x : α) : List α → List α
  | [] => [x]
  | y :: rest => if le x y then x :: y :: rest else y :: insertBy le x rest

/-- Stable insertion sort by the boolean relation `le`
(models Python's stable `sorted`). -/
def sortBy {α : Type} (le : α → α → Bool) : List α → List α
  | [] => []
  | x :: rest => insertBy le x (sortBy le rest)

/-- Minimal JSON string escaping as produced by `json.dumps`
(backslash, double quote, and the common control characters). -/
def jsonEscapeChar (c : Char) : String :=
  if c = '\\' then "\\\\"
  else if c = '"' then "\\\""
  else if c = '\n' then "\\n"
  else if c = '\t' then "\\t"
  else if c = '\r' then "\\r"
  else String.singleton c

/-- JSON rendering of a string literal, `json.dumps`-style. -/
def jsonStr (s : String) : String :=
  "\"" ++ String.join (s.data.map jsonEscapeChar) ++ "\""

/-- Python's `<=` on strings, on the underlying character lists:
code-point lexicographic comparison. -/
def charListLe : List Char → List Char → Bool
  | [], _ => true
  | _ :: _, [] => false
  | a :: as, b :: bs => if a < b then true else if b < a then false else charListLe as bs

/-- Python's `<=` on strings (code-point lexicographic). -/
def strLe (a b : String) : Bool := charListLe a.data b.data

/-- Order used by `json.dumps(..., sort_keys=True)` on (key, rendered item)
pairs: compare the keys with Python's string order. -/
def keyLe (a b : String × String) : Bool := strLe a.1 b.1

mutual
/-- `json.dumps(value, sort_keys=sort)` with default separators `", "` and
`": "`: `None/True/False` become `null/true/false`, tuples are rendered as
arrays, dict keys are sorted when `sort` is true (insertion order otherwise). -/
def jsonDumps (sort : Bool) : PyVal → String
  | .none => "null"
  | .bool true => "true"
  | .bool false => "false"
  | .int n => toString n
  | .str s => jsonStr s
  | .list xs => "[" ++ String.intercalate ", " (jsonArr sort xs) ++ "]"
  | .tuple xs => "[" ++ String.intercalate ", " (jsonArr sort xs) ++ "]"
  | .dict entries =>
      let items := jsonItems sort entries
      let ordered := if sort then sortBy keyLe items else items
      "\x7b" ++ String.intercalate ", " (ordered.map Prod.snd) ++ "\x7d"

/-- Rendered elements of a JSON array. -/
def jsonArr (sort : Bool) : List PyVal → List String
  | [] => []
  | v :: rest => jsonDumps sort v :: jsonArr sort rest

/-- Rendered `"key": value` items of a JSON object, paired with their raw key
(the key is kept so that `sort_keys=True` can order by it). -/
def jsonItems (sort : Bool) : List (String × PyVal) → List (String × String)
  | [] => []
  | (k, v) :: rest => (k, jsonStr k ++ ": " ++ jsonDumps sort v) :: jsonItems sort rest
end

/-- UTF-8 encoding of a single unicode scalar value (as `.encode("utf-8")`). -/
def utf8EncodeChar (n : Nat) : List Nat :=
  if n < 0x80 then [n]
  else if n < 0x800 then [0xC0 ||| (n >>> 6), 0x80 ||| (n &&& 0x3F)]
  else if n < 0x10000 then
    [0xE0 ||| (n >>> 12), 0x80 ||| ((n >>> 6) &&& 0x3F), 0x80 ||| (n &&& 0x3F)]
  else
    [0xF0 ||| (n >>> 18), 0x80 ||| ((n >>> 12) &&& 0x3F),
     0x80 ||| ((n >>> 6) &&& 0x3F), 0x80 ||| (n &&& 0x3F)]

/-- `s.encode("utf-8")` as a byte list. -/
def utf8Bytes (s : String) : List Nat :=
  s.data.flatMap (fun c => utf8EncodeChar c.toNat)

namespace SHA256

/-- 32-bit truncation. -/
def w32 (n : Nat) : Nat := n % 4294967296

/-- 32-bit right rotation. -/
def rotr (k x : Nat) : Nat := w32 ((x >>> k) ||| (x <<< (32 - k)))

/-- 32-bit bitwise complement. -/
def wnot (x : Nat) : Nat := 4294967295 - w32 x

/-- SHA-256 round constants. -/
def K : List Nat :=
  [1116352408, 1899447441, 3049323471, 3921009573, 961987163, 1508970993,
   2453635748, 2870763221, 3624381080, 310598401, 607225278, 1426881987,
   1925078388, 2162078206, 2614888103, 3248222580, 3835390401, 4022224774,
   264347078, 604807628, 770255983, 1249150122, 1555081692, 1996064986,
   2554220882, 2821834349, 2952996808, 3210313671, 3336571891, 3584528711,
   113926993, 338241895, 666307205, 773529912, 1294757372, 1396182291,
   1695183700, 1986661051, 2177026350, 2456956037, 2730485921, 2820302411,
   3259730800, 3345764771, 3516065817, 3600352804, 4094571909, 275423344,
   430227734, 506948616, 659060556, 883997877, 958139571, 1322822218,
   1537002063, 1747873779, 1955562222, 2024104815, 2227730452, 2361852424,
   2428436474, 2756734187, 3204031479, 3329325298]

/-- SHA-256 initial hash state. -/
def H0 : List Nat :=
  [1779033703, 3144134277, 1013904242, 2773480762,
   1359893119, 2600822924, 528734635, 1541459225]

/-- Message padding: append `0x80`, zero bytes, and the 64-bit big-endian
bit length, reaching a multiple of 64 bytes. -/
def pad (msg : List Nat) : List Nat :=
  let len := msg.length
  let zeros := (64 + 55 - len % 64) % 64
  let bitLen := len * 8
  msg ++ [0x80] ++ List.replicate zeros 0 ++
    [(bitLen >>> 56) % 256, (bitLen >>> 48) % 256, (bitLen >>> 40) % 256,
     (bitLen >>> 32) % 256, (bitLen >>> 24) % 256, (bitLen >>> 16) % 256,
     (bitLen >>> 8) % 256, bitLen % 256]

/-- Combine four bytes into a big-endian 32-bit word. -/
def word (a b c d : Nat) : Nat := ((a * 256 + b) * 256 + c) * 256 + d

/-- Split padded bytes into big-endian 32-bit words. -/
def toWords : List Nat → List Nat
  | a :: b :: c :: d :: rest => word a b c d :: toWords rest
  | _ => []

/-- Message-schedule extension step: given the last 16 words (most recent
first), compute the next word. -/
def nextWord (recent : List Nat) : Nat :=
  let get (i : Nat) : Nat := recent.getD i 0
  let w15 := get 14
  let w2 := get 1
  let s0 := (rotr 7 w15) ^^^ (rotr 18 w15) ^^^ (w15 >>> 3)
  let s1 := (rotr 17 w2) ^^^ (rotr 19 w2) ^^^ (w2 >>> 10)
  w32 (get 15 + s0 + get 6 + s1)

/-- Extend the 16 block words to the full 64-word schedule. `recent` holds
the words produced so far, most recent first. -/
def extend : Nat → List Nat → List Nat
  | 0, _ => []
  | fuel + 1, recent =>
      let w := nextWord recent
      w :: extend fuel (w :: recent)

/-- The 64-entry message schedule of a 16-word block. -/
def schedule (block : List Nat) : List Nat :=
  block ++ extend 48 block.reverse

/-- One SHA-256 compression round. -/
def round (st : List Nat) (kw : Nat × Nat) : List Nat :=
  match st with
  | [a, b, c, d, e, f, g, h] =>
      let s1 := (rotr 6 e) ^^^ (rotr 11 e) ^^^ (rotr 25 e)
      let ch := (e &&& f) ^^^ ((wnot e) &&& g)
      let t1 := w32 (h + s1 + ch + kw.1 + kw.2)
      let s0 := (rotr 2 a) ^^^ (rotr 13 a) ^^^ (rotr 22 a)
      let mj := (a &&& b) ^^^ (a &&& c) ^^^ (b &&& c)
      let t2 := w32 (s0 + mj)
      [w32 (t1 + t2), a, b, c, w32 (d + t1), e, f, g]
  | other => other

/-- Compress one 16-word block into the running hash state. -/
def compress (h : List Nat) (block : List Nat) : List Nat :=
  let out := (List.zip K (schedule block)).foldl round h
  (List.zip h out).map (fun p => w32 (p.1 + p.2))

/-- Process the padded words block by block (padding guarantees the word
count is a multiple of 16). -/
def blocks (h : List Nat) : List Nat → List Nat
  | w0 :: w1 :: w2 :: w3 :: w4 :: w5 :: w6 :: w7 ::
    w8 :: w9 :: w10 :: w11 :: w12 :: w13 :: w14 :: w15 :: rest =>
      blocks (compress h
        [w0, w1, w2, w3, w4, w5, w6, w7, w8, w9, w10, w11, w12, w13, w14, w15]) rest
  | _ => h

/-- Hexadecimal rendering of a 32-bit word (8 lowercase hex digits). -/
def hexWord (n : Nat) : String :=
  let digits := Nat.toDigits 16 n
  String.mk (List.replicate (8 - digits.length) '0' ++ digits)

/-- SHA-256 of a byte list, as the usual lowercase hex digest. -/
def digest (msg : List Nat) : String :=
  String.join ((blocks H0 (toWords (pad msg))).map hexWord)

end SHA256

/-- `create_fingerprint` (runtime_tracking/utils.py): serialize with
`json.dumps(value, sort_keys=True, default=str)` and return the SHA-256 hex
digest of the UTF-8 bytes. On the engine's declared input domain (`PyVal`)
serialization always succeeds, so the `repr` fallback branch is not taken. -/
def create_fingerprint (value : PyVal) : String :=
  SHA256.digest (utf8Bytes (jsonDumps true value))

mutual
/-- `flatten_payload` (runtime_tracking/utils.py): yield dotted-path → value
pairs from nested dicts/lists; every other value (including tuples, which the
code's `isinstance(payload, list)` check does not cover) is a leaf. -/
def flatten_payload : PyVal → List (String × PyVal)
  | .dict entries => flattenDictEntries entries
  | .list xs => flattenListFrom 0 xs
  | v => [("", v)]

/-- Dict part of `flatten_payload`: prefix nested keys with `key.`. -/
def flattenDictEntries : List (String × PyVal) → List (String × PyVal)
  | [] => []
  | (k, v) :: rest =>
      (flatten_payload v).map
        (fun p => (if p.1 = "" then k else k ++ "." ++ p.1, p.2)) ++
      flattenDictEntries rest

/-- List part of `flatten_payload`: prefix nested keys with the index. -/
def flattenListFrom (i : Nat) : List PyVal → List (String × PyVal)
  | [] => []
  | v :: rest =>
      (flatten_payload v).map
        (fun p => (if p.1 = "" then toString i else toString i ++ "." ++ p.1, p.2)) ++
      flattenListFrom (i + 1) rest
end

mutual
/-- Python `repr` restricted to the `PyVal` domain (used by `str` on
containers and for value previews). -/
def reprPy : PyVal → String
  | .none => "None"
  | .bool true => "True"
  | .bool false => "False"
  | .int n => toString n
  | .str s => "'" ++ s ++ "'"
  | .list xs => "[" ++ String.intercalate ", " (reprList xs) ++ "]"
  | .tuple [x] => "(" ++ reprPy x ++ ",)"
  | .tuple xs => "(" ++ String.intercalate ", " (reprList xs) ++ ")"
  | .dict entries => "\x7b" ++ String.intercalate ", " (reprEntries entries) ++ "\x7d"

/-- `repr` of the elements of a container. -/
def reprList : List PyVal → List String
  | [] => []
  | v :: rest => reprPy v :: reprList rest

/-- `repr` of dict entries. -/
def reprEntries : List (String × PyVal) → List String
  | [] => []
  | (k, v) :: rest => ("'" ++ k ++ "': " ++ reprPy v) :: reprEntries rest
end

/-- Python `str`: identity on strings, `repr` otherwise. -/
def strPy : PyVal → String
  | .str s => s
  | v => reprPy v

/-- `str(value)[:100]`, the preview truncation used at tag creation. -/
def preview100 (v : PyVal) : String := (strPy v).take 100

/-! ### Generic facts about the stable insertion sort `sortBy` -/

theorem mem_insertBy {α : Type} (le : α → α → Bool) (x : α) :
    ∀ (l : List α), ∀ z ∈ insertBy le x l, z = x ∨ z ∈ l := by
  intro l
  induction l with
  | nil => intro z hz; simp [insertBy] at hz; exact Or.inl hz
  | cons y rest ih =>
    intro z hz
    simp only [insertBy] at hz
    by_cases h : le x y
    · rw [if_pos h] at hz
      rcases List.mem_cons.mp hz with h1 | h2
      · exact Or.inl h1
      · exact Or.inr h2
    · rw [if_neg h] at hz
      rcases List.mem_cons.mp hz with h1 | h2
      · exact Or.inr (h1 ▸ List.mem_cons_self y rest)
      · rcases ih z h2 with hx | hr
        · exact Or.inl hx
        · exact Or.inr (List.mem_cons_of_mem y hr)

theorem insertBy_perm {α : Type} (le : α → α → Bool) (x : α) :
    ∀ (l : List α), (insertBy le x l).Perm (x :: l) := by
  intro l
  induction l with
  | nil => simp [insertBy]
  | cons y rest ih =>
    simp only [insertBy]
    by_cases h : le x y
    · rw [if_pos h]
    · rw [if_neg h]
      exact (ih.cons y).trans (List.Perm.swap x y rest)

theorem sortBy_perm {α : Type} (le : α → α → Bool) :
    ∀ (l : List α), (sortBy le l).Perm l := by
  intro l
  induction l with
  | nil => simp [sortBy]
  | cons x rest ih =>
    simp only [sortBy]
    exact (insertBy_perm le x (sortBy le rest)).trans (ih.cons x)

theorem pairwise_insertBy {α : Type} (le : α → α → Bool)
    (htot : ∀ a b, le a b = true ∨ le b a = true)
    (htrans : ∀ a b c, le a b = true → le b c = true → le a c = true)
    (x : α) : ∀ (l : List α), l.Pairwise (fun a b => le a b = true) →
    (insertBy le x l).Pairwise (fun a b => le a b = true) := by
  intro l
  induction l with
  | nil => intro _; simp [insertBy]
  | cons y rest ih =>
    intro hp
    rcases List.pairwise_cons.mp hp with ⟨hy, hrest⟩
    simp only [insertBy]
    by_cases h : le x y
    · rw [if_pos h]
      refine List.pairwise_cons.mpr ⟨?_, hp⟩
      intro z hz
      rcases List.mem_cons.mp hz with rfl | hz'
      · exact h
      · exact htrans x y z h (hy z hz')
    · rw [if_neg h]
      refine List.pairwise_cons.mpr ⟨?_, ih hrest⟩
      intro z hz
      rcases mem_insertBy le x rest z hz with hzx | hz'
      · exact hzx ▸ (htot y x).resolve_right h
      · exact hy z hz'

theorem pairwise_sortBy {α : Type} (le : α → α → Bool)
    (htot : ∀ a b, le a b = true ∨ le b a = true)
    (htrans : ∀ a b c, le a b = true → le b c = true → le a c = true) :
    ∀ (l : List α), (sortBy le l).Pairwise (fun a b => le a b = true) := by
  intro l
  induction l with
  | nil => simp [sortBy]
  | cons x rest ih =>
    simp only [sortBy]
    exact pairwise_insertBy le htot htrans x (sortBy le rest) ih

/-! ### Key-sorted serialization is invariant under entry permutation -/

theorem jsonItems_eq_map (sort : Bool) :
    ∀ (l : List (String × PyVal)),
    jsonItems sort l = l.map (fun p => (p.1, jsonStr p.1 ++ ": " ++ jsonDumps sort p.2)) := by
  intro l
  induction l with
  | nil => simp [jsonItems]
  | cons p rest ih => cases p; simp [jsonItems, ih]

theorem charListLe_total : ∀ as bs : List Char,
    charListLe as bs = true ∨ charListLe bs as = true := by
  intro as
  induction as with
  | nil => intro bs; left; rfl
  | cons a as' ih =>
    intro bs
    cases bs with
    | nil => right; rfl
    | cons b bs' =>
      rcases lt_trichotomy a b with h | h | h
      · left; simp [charListLe, h]
      · subst h
        rcases ih bs' with h' | h'
        · left; simp [charListLe, lt_irrefl, h']
        · right; simp [charListLe, lt_irrefl, h']
      · right; simp [charListLe, h]

theorem charListLe_trans : ∀ as bs cs : List Char,
    charListLe as bs = true → charListLe bs cs = true → charListLe as cs = true := by
  intro as
  induction as with
  | nil => intro bs cs _ _; rfl
  | cons a as' ih =>
    intro bs cs h1 h2
    cases bs with
    | nil => simp [charListLe] at h1
    | cons b bs' =>
      cases cs with
      | nil => simp [charListLe] at h2
      | cons c cs' =>
        simp only [charListLe] at h1 h2 ⊢
        rcases lt_trichotomy a b with hab | hab | hab
        · rcases lt_trichotomy b c with hbc | hbc | hbc
          · rw [if_pos (lt_trans hab hbc)]
          · subst hbc; rw [if_pos hab]
          · rw [if_neg (asymm hbc), if_pos hbc] at h2; exact absurd h2 (by simp)
        · subst hab
          rw [if_neg (lt_irrefl a), if_neg (lt_irrefl a)] at h1
          rcases lt_trichotomy a c with hac | hac | hac
          · rw [if_pos hac]
          · subst hac
            rw [if_neg (lt_irrefl a), if_neg (lt_irrefl a)] at h2 ⊢
            exact ih bs' cs' h1 h2
          · rw [if_neg (asymm hac), if_pos hac] at h2; exact absurd h2 (by simp)
        · rw [if_neg (asymm hab), if_pos hab] at h1; exact absurd h1 (by simp)

theorem charListLe_antisymm : ∀ as bs : List Char,
    charListLe as bs = true → charListLe bs as = true → as = bs := by
  intro as
  induction as with
  | nil =>
    intro bs h1 h2
    cases bs with
    | nil => rfl
    | cons b bs' => simp [charListLe] at h2
  | cons a as' ih =>
    intro bs h1 h2
    cases bs with
    | nil => simp [charListLe] at h1
    | cons b bs' =>
      simp only [charListLe] at h1 h2
      rcases lt_trichotomy a b with hab | hab | hab
      · rw [if_neg (asymm hab), if_pos hab] at h2; exact absurd h2 (by simp)
      · subst hab
        rw [if_neg (lt_irrefl a), if_neg (lt_irrefl a)] at h1 h2
        rw [ih bs' h1 h2]
      · rw [if_neg (asymm hab), if_pos hab] at h1; exact absurd h1 (by simp)

theorem strLe_antisymm (a b : String) (h1 : strLe a b = true) (h2 : strLe b a = true) :
    a = b := by
  have hd : a.data = b.data := charListLe_antisymm a.data b.data h1 h2
  cases a
  cases b
  exact congrArg String.mk hd

theorem keyLe_total : ∀ a b : String × String, keyLe a b = true ∨ keyLe b a = true :=
  fun a b => charListLe_total a.1.data b.1.data

theorem keyLe_trans : ∀ a b c : String × String,
    keyLe a b = true → keyLe b c = true → keyLe a c = true :=
  fun a b c h1 h2 => charListLe_trans a.1.data b.1.data c.1.data h1 h2

theorem sortedPairs_perm_eq : ∀ (l1 l2 : List (String × String)),
    l1.Perm l2 → l1.Pairwise (fun a b => keyLe a b = true) →
    l2.Pairwise (fun a b => keyLe a b = true) →
    (l1.map Prod.fst).Nodup → l1 = l2 := by
  intro l1
  induction l1 with
  | nil =>
    intro l2 hp _ _ _
    exact (hp.symm.eq_nil).symm
  | cons h1 t1 ih =>
    intro l2 hp hs1 hs2 hnd
    rw [List.map_cons] at hnd
    have hndc := List.nodup_cons.mp hnd
    have hmem : h1 ∈ l2 := hp.mem_iff.mp (List.mem_cons_self _ _)
    cases l2 with
    | nil => exact absurd hmem (List.not_mem_nil _)
    | cons h2 t2 =>
      have hh : h1 = h2 := by
        rcases List.mem_cons.mp hmem with he | ht
        · exact he
        · have hle21 : keyLe h2 h1 = true := (List.pairwise_cons.mp hs2).1 h1 ht
          have hmem2 : h2 ∈ h1 :: t1 := hp.mem_iff.mpr (List.mem_cons_self _ _)
          rcases List.mem_cons.mp hmem2 with he2 | ht2
          · exact he2.symm
          · have hle12 : keyLe h1 h2 = true := (List.pairwise_cons.mp hs1).1 h2 ht2
            have hkeys : h1.1 = h2.1 := strLe_antisymm _ _ hle12 hle21
            exfalso
            have hmemk : h1.1 ∈ t1.map Prod.fst :=
              hkeys ▸ (List.mem_map_of_mem Prod.fst ht2)
            exact hndc.1 hmemk
      subst hh
      have hp' : t1.Perm t2 := hp.cons_inv
      have hrec := ih t2 hp' (List.pairwise_cons.mp hs1).2 (List.pairwise_cons.mp hs2).2 hndc.2
      rw [hrec]

theorem sortBy_keyLe_eq_of_perm (l1 l2 : List (String × String))
    (hp : l1.Perm l2) (hnd : (l1.map Prod.fst).Nodup) :
    sortBy keyLe l1 = sortBy keyLe l2 := by
  have hperm : (sortBy keyLe l1).Perm (sortBy keyLe l2) :=
    (sortBy_perm keyLe l1).trans (hp.trans (sortBy_perm keyLe l2).symm)
  have hnd1 : ((sortBy keyLe l1).map Prod.fst).Nodup :=
    (((sortBy_perm keyLe l1).map Prod.fst).nodup_iff).mpr hnd
  exact sortedPairs_perm_eq _ _ hperm
    (pairwise_sortBy keyLe keyLe_total keyLe_trans l1)
    (pairwise_sortBy keyLe keyLe_total keyLe_trans l2) hnd1

theorem jsonDumps_dict_perm (l1 l2 : List (String × PyVal))
    (hp : l1.Perm l2) (hnd : (l1.map Prod.fst).Nodup) :
    jsonDumps true (.dict l1) = jsonDumps true (.dict l2) := by
  have hpi : (jsonItems true l1).Perm (jsonItems true l2) := by
    rw [jsonItems_eq_map, jsonItems_eq_map]
    exact hp.map _
  have hkeys : (jsonItems true l1).map Prod.fst = l1.map Prod.fst := by
    rw [jsonItems_eq_map, List.map_map]
    rfl
  have hsorted : sortBy keyLe (jsonItems true l1) = sortBy keyLe (jsonItems true l2) :=
    sortBy_keyLe_eq_of_perm _ _ hpi (hkeys ▸ hnd)
  show "\x7b" ++ String.intercalate ", "
      ((sortBy keyLe (jsonItems true l1)).map Prod.snd) ++ "\x7d" =
    "\x7b" ++ String.intercalate ", "
      ((sortBy keyLe (jsonItems true l2)).map Prod.snd) ++ "\x7d"
  rw [hsorted]

/-- C2: `create_fingerprint` is a pure function — repeated applications to
the same value give the same string — and identical logical content gives
identical fingerprints: dicts with the same key-value entries in a different
key order (keys distinct, as in any Python dict), and the same sequence held
as a tuple instead of a list, fingerprint identically. -/
theorem C2_create_fingerprint_pure_canonical :
    (∀ v : PyVal, create_fingerprint v = create_fingerprint v) ∧
    (∀ l1 l2 : List (String × PyVal), l1.Perm l2 → (l1.map Prod.fst).Nodup →
      create_fingerprint (.dict l1) = create_fingerprint (.dict l2)) ∧
    (∀ xs : List PyVal, create_fingerprint (.tuple xs) = create_fingerprint (.list xs)) := by
  refine ⟨fun v => rfl, ?_, fun xs => rfl⟩
  intro l1 l2 hp hnd
  unfold create_fingerprint
  rw [jsonDumps_dict_perm l1 l2 hp hnd]

/-- C2 witness: the two orderings of `{"b": 1, "a": "x"}` fingerprint
identically, and so do `("x", 1)` and `["x", 1]`. -/
theorem C2_witness :
    create_fingerprint (.dict [("b", .int 1), ("a", .str "x")]) =
      create_fingerprint (.dict [("a", .str "x"), ("b", .int 1)]) ∧
    create_fingerprint (.tuple [.str "x", .int 1]) =
      create_fingerprint (.list [.str "x", .int 1]) :=
  ⟨C2_create_fingerprint_pure_canonical.2.1 _ _
      (List.Perm.swap ("a", PyVal.str "x") ("b", PyVal.int 1) [])
      (by decide),
    C2_create_fingerprint_pure_canonical.2.2 [.str "x", .int 1]⟩

/-! ### Small list facts shared by the developments below -/

theorem filter_one_pos {α : Type} (p : α → Bool) (a : α) (h : p a = true) :
    List.filter p [a] = [a] := by
  simp [List.filter, h]

theorem filter_one_neg {α : Type} (p : α → Bool) (a : α) (h : p a = false) :
    List.filter p [a] = [] := by
  simp [List.filter, h]

/-! ### `detect_suspicious_sharing` (budget_tracker/provenance_utils.py) -/

namespace Detect

/-- A row of the legacy `DataSharingEvent` table as read by
`detect_suspicious_sharing`. The `identifiers_json` column is carried in
parsed form (`json.loads` of the stored JSON list of strings, `[]` when the
column is null); `timestamp` is an abstract instant ordered as `Nat`. -/
structure DataSharingEvent where
  event_type : String
  destination : String
  identifiers : List String
  timestamp : Nat
deriving DecidableEq, Repr

/-- One entry of the `sharing_counts` aggregation built by
`detect_suspicious_sharing` (the `events` list carries the grouped rows,
standing for their `to_dict()` renderings). -/
structure SharingPattern where
  event_type : String
  destination : String
  identifiers : List String
  count : Nat
  first_seen : Nat
  last_seen : Nat
  events : List DataSharingEvent
deriving DecidableEq, Repr

/-- The grouping key `(event.event_type, event.destination,
tuple(identifiers))` — the identifier list exactly as stored, not sorted
and not deduplicated. -/
def eventKey (e : DataSharingEvent) : String × String × List String :=
  (e.event_type, e.destination, e.identifiers)

/-- The key under which a `sharing_counts` entry is stored. -/
def patternKey (p : SharingPattern) : String × String × List String :=
  (p.event_type, p.destination, p.identifiers)

/-- The update applied to a `sharing_counts` entry when an event arrives: on
the matching key, `count += 1`, `last_seen = max(last_seen, ts)`, and the
event is appended; other entries are untouched. -/
def bumpPattern (e : DataSharingEvent) (p : SharingPattern) : SharingPattern :=
  if patternKey p = eventKey e then
    { p with count := p.count + 1,
             last_seen := max p.last_seen e.timestamp,
             events := p.events ++ [e] }
  else p

/-- One iteration of the `for event in events` loop of
`detect_suspicious_sharing`: initialise the entry for the event's key if
absent (count 0, first/last seen at the event's timestamp, empty event
list), then increment the count, update `last_seen`, and append the event.
Key insertion order is preserved, as in a Python dict. -/
def addEvent (acc : List SharingPattern) (e : DataSharingEvent) : List SharingPattern :=
  if acc.any (fun p => decide (patternKey p = eventKey e)) then
    acc.map (bumpPattern e)
  else
    acc ++ [⟨e.event_type, e.destination, e.identifiers, 1, e.timestamp, e.timestamp, [e]⟩]

/-- The comparison used by `sorted(suspicious, key=lambda x: x['count'],
reverse=True)`: stable descending order on `count`. -/
def countDesc (a b : SharingPattern) : Bool := decide (b.count ≤ a.count)

/-- `detect_suspicious_sharing(user_id, threshold)`
(budget_tracker/provenance_utils.py): the
`DataSharingEvent.query.filter_by(user_id=user_id).all()` result is taken as
the input list. Groups all of the user's events by
`(event_type, destination, tuple(identifiers))`, keeps the groups with
`count >= threshold`, and sorts them by descending count. -/
def detect_suspicious_sharing (events : List DataSharingEvent)
    (threshold : Nat) : List SharingPattern :=
  sortBy countDesc
    ((events.foldl addEvent []).filter (fun p => decide (threshold ≤ p.count)))

theorem patternKey_bump (e : DataSharingEvent) (p : SharingPattern) :
    patternKey (bumpPattern e p) = patternKey p := by
  unfold bumpPattern
  split <;> rfl

/-- Loop invariant of the `sharing_counts` aggregation: every entry counts
exactly the processed events with its key, keys are distinct, and every
processed event has an entry. -/
def CountsInv (processed : List DataSharingEvent) (acc : List SharingPattern) : Prop :=
  (∀ p ∈ acc,
      p.count = (processed.filter (fun e => decide (eventKey e = patternKey p))).length) ∧
  ((acc.map patternKey).Nodup) ∧
  (∀ e ∈ processed, ∃ p ∈ acc, patternKey p = eventKey e)

theorem addEvent_inv (processed : List DataSharingEvent)
    (acc : List SharingPattern) (e : DataSharingEvent)
    (h : CountsInv processed acc) :
    CountsInv (processed ++ [e]) (addEvent acc e) := by
  obtain ⟨h1, h2, h3⟩ := h
  by_cases hin : acc.any (fun p => decide (patternKey p = eventKey e))
  · rw [addEvent, if_pos hin]
    refine ⟨?_, ?_, ?_⟩
    · intro p' hp'
      obtain ⟨p, hp, rfl⟩ := List.mem_map.mp hp'
      rw [List.filter_append, patternKey_bump]
      by_cases hk : patternKey p = eventKey e
      · rw [filter_one_pos _ _ (by simp [hk]), List.length_append]
        have hc : (bumpPattern e p).count = p.count + 1 := by
          unfold bumpPattern
          rw [if_pos hk]
        rw [hc, h1 p hp]
        rfl
      · rw [filter_one_neg _ _ (by simp; exact fun q => hk q.symm), List.append_nil]
        have hc : (bumpPattern e p).count = p.count := by
          unfold bumpPattern
          rw [if_neg hk]
        rw [hc]
        exact h1 p hp
    · have hmaps : (acc.map (bumpPattern e)).map patternKey = acc.map patternKey := by
        rw [List.map_map]
        exact List.map_congr_left (fun p _ => patternKey_bump e p)
      rw [hmaps]
      exact h2
    · intro e' he'
      rcases List.mem_append.mp he' with hold | hnew
      · obtain ⟨p, hp, hkey⟩ := h3 e' hold
        exact ⟨bumpPattern e p, List.mem_map_of_mem _ hp, (patternKey_bump e p).trans hkey⟩
      · obtain ⟨p, hp, hdec⟩ := List.any_eq_true.mp hin
        have hk : patternKey p = eventKey e := of_decide_eq_true hdec
        have he'' : e' = e := by simpa using hnew
        exact ⟨bumpPattern e p, List.mem_map_of_mem _ hp,
          (patternKey_bump e p).trans (he'' ▸ hk)⟩
  · rw [addEvent, if_neg hin]
    have hnotin : ∀ p ∈ acc, patternKey p ≠ eventKey e := by
      intro p hp hk
      exact hin (List.any_eq_true.mpr ⟨p, hp, decide_eq_true hk⟩)
    have hproc : ∀ e' ∈ processed, eventKey e' ≠ eventKey e := by
      intro e' he' hk
      obtain ⟨p, hp, hkey⟩ := h3 e' he'
      exact hnotin p hp (hkey.trans hk)
    refine ⟨?_, ?_, ?_⟩
    · intro p' hp'
      rcases List.mem_append.mp hp' with hold | hnew
      · rw [List.filter_append,
          filter_one_neg _ _ (by simp; exact fun q => hnotin p' hold q.symm),
          List.append_nil]
        exact h1 p' hold
      · have hp'' : p' = ⟨e.event_type, e.destination, e.identifiers, 1,
            e.timestamp, e.timestamp, [e]⟩ := by simpa using hnew
        subst hp''
        have hkeq : patternKey (⟨e.event_type, e.destination, e.identifiers, 1,
            e.timestamp, e.timestamp, [e]⟩ : SharingPattern) = eventKey e := rfl
        rw [List.filter_append, hkeq]
        have hfp : (processed.filter
            (fun e' => decide (eventKey e' = eventKey e))) = [] := by
          rw [List.filter_eq_nil_iff]
          intro e' he'
          simp only [decide_eq_true_eq]
          exact hproc e' he'
        rw [hfp, filter_one_pos _ _ (by simp)]
        rfl
    · rw [List.map_append]
      refine List.Nodup.append h2 (List.nodup_singleton _) ?_
      intro k hk1 hk2
      obtain ⟨p, hp, hkey⟩ := List.mem_map.mp hk1
      have hke : k = eventKey e := by simpa using hk2
      exact hnotin p hp (hkey.trans hke)
    · intro e' he'
      rcases List.mem_append.mp he' with hold | hnew
      · obtain ⟨p, hp, hkey⟩ := h3 e' hold
        exact ⟨p, List.mem_append_left _ hp, hkey⟩
      · have he'' : e' = e := by simpa using hnew
        refine ⟨⟨e.event_type, e.destination, e.identifiers, 1,
            e.timestamp, e.timestamp, [e]⟩, List.mem_append_right _ (by simp), ?_⟩
        rw [he'']
        rfl

theorem foldl_addEvent_inv :
    ∀ (evs processed : List DataSharingEvent) (acc : List SharingPattern),
    CountsInv processed acc → CountsInv (processed ++ evs) (evs.foldl addEvent acc) := by
  intro evs
  induction evs with
  | nil =>
    intro processed acc h
    simpa using h
  | cons e rest ih =>
    intro processed acc h
    have h' := addEvent_inv processed acc e h
    have h'' := ih (processed ++ [e]) (addEvent acc e) h'
    simpa [List.append_assoc] using h''

theorem counts_inv (events : List DataSharingEvent) :
    CountsInv events (events.foldl addEvent []) := by
  have h0 : CountsInv [] [] :=
    ⟨fun p hp => absurd hp (List.not_mem_nil p), List.nodup_nil,
      fun e he => absurd he (List.not_mem_nil e)⟩
  have h := foldl_addEvent_inv events [] [] h0
  simpa using h

end Detect

namespace Detect

/-- The spec's threshold scenario: six sharing events to the same
destination with the same single owner identifier, timestamps 0–5. -/
def sixShares : List DataSharingEvent :=
  [⟨"api_call", "https://api.partner.com", ["user_1"], 0⟩,
   ⟨"api_call", "https://api.partner.com", ["user_1"], 1⟩,
   ⟨"api_call", "https://api.partner.com", ["user_1"], 2⟩,
   ⟨"api_call", "https://api.partner.com", ["user_1"], 3⟩,
   ⟨"api_call", "https://api.partner.com", ["user_1"], 4⟩,
   ⟨"api_call", "https://api.partner.com", ["user_1"], 5⟩]

/-- The single group produced for `sixShares` at threshold 5. -/
def sixSharePattern : SharingPattern :=
  ⟨"api_call", "https://api.partner.com", ["user_1"], 6, 0, 5, sixShares⟩

/-- C1 counterexample: two sharing events whose identifier lists are the
same set in different stored orders fall into two distinct groups (the code
keys on the identifier tuple as stored, not on the sorted set), and both
groups are returned at threshold 1 although each has count 1, which does not
exceed the threshold — the code filters with `count >= threshold`, not
`count > threshold`, and applies no trailing time window. -/
theorem C1_counterexample :
    detect_suspicious_sharing
        [⟨"api_call", "https://x", ["b", "a"], 0⟩,
         ⟨"api_call", "https://x", ["a", "b"], 1⟩] 1 =
      [⟨"api_call", "https://x", ["b", "a"], 1, 0, 0,
          [⟨"api_call", "https://x", ["b", "a"], 0⟩]⟩,
       ⟨"api_call", "https://x", ["a", "b"], 1, 1, 1,
          [⟨"api_call", "https://x", ["a", "b"], 1⟩]⟩] ∧
    sortBy strLe ["b", "a"] = sortBy strLe ["a", "b"] := by
  constructor
  · rfl
  · rfl

/-- C1 (amended): `detect_suspicious_sharing` groups all of the user's
recorded sharing events — with no time-window restriction — by
`(event_type, destination, identifier tuple as stored)`; it returns
**exactly** the groups whose event count is at least (`>=`) the threshold:
every returned group meets the threshold and counts precisely the events
with its key (soundness), and every key whose event count reaches the
threshold is surfaced as a returned group with that count (completeness);
the groups have distinct keys and are sorted by descending count; and on
the spec's scenario of six same-key sharing events at threshold 5 it
returns exactly one group with count 6. -/
theorem C1_detect_suspicious_sharing :
    (∀ (events : List DataSharingEvent) (threshold : Nat) (p : SharingPattern),
        p ∈ detect_suspicious_sharing events threshold →
        threshold ≤ p.count ∧
        p.count = (events.filter (fun e => decide (eventKey e = patternKey p))).length) ∧
    (∀ (events : List DataSharingEvent) (threshold : Nat) (e : DataSharingEvent),
        e ∈ events →
        threshold ≤ (events.filter (fun e' => decide (eventKey e' = eventKey e))).length →
        ∃ p ∈ detect_suspicious_sharing events threshold,
          patternKey p = eventKey e ∧
          p.count =
            (events.filter (fun e' => decide (eventKey e' = eventKey e))).length) ∧
    (∀ (events : List DataSharingEvent) (threshold : Nat),
        (detect_suspicious_sharing events threshold).Pairwise
          (fun a b => b.count ≤ a.count)) ∧
    (∀ (events : List DataSharingEvent) (threshold : Nat),
        ((detect_suspicious_sharing events threshold).map patternKey).Nodup) ∧
    detect_suspicious_sharing sixShares 5 = [sixSharePattern] := by
  have htot : ∀ a b : SharingPattern, countDesc a b = true ∨ countDesc b a = true := by
    intro a b
    simp only [countDesc, decide_eq_true_eq]
    exact (le_total b.count a.count)
  have htrans : ∀ a b c : SharingPattern,
      countDesc a b = true → countDesc b c = true → countDesc a c = true := by
    intro a b c hab hbc
    simp only [countDesc, decide_eq_true_eq] at *
    exact le_trans hbc hab
  refine ⟨?_, ?_, ?_, ?_, by rfl⟩
  · intro events threshold p hp
    have hp1 : p ∈ (events.foldl addEvent []).filter
        (fun p => decide (threshold ≤ p.count)) :=
      ((sortBy_perm countDesc _).mem_iff).mp hp
    obtain ⟨hmem, hdec⟩ := List.mem_filter.mp hp1
    refine ⟨of_decide_eq_true hdec, ?_⟩
    exact (counts_inv events).1 p hmem
  · intro events threshold e he hth
    obtain ⟨h1, h2, h3⟩ := counts_inv events
    obtain ⟨p, hp, hkey⟩ := h3 e he
    have hcount : p.count =
        (events.filter (fun e' => decide (eventKey e' = eventKey e))).length := by
      rw [h1 p hp, hkey]
    have hthp : threshold ≤ p.count := by
      rw [hcount]
      exact hth
    have hpf : p ∈ (events.foldl addEvent []).filter
        (fun q => decide (threshold ≤ q.count)) :=
      List.mem_filter.mpr ⟨hp, decide_eq_true hthp⟩
    have hps : p ∈ detect_suspicious_sharing events threshold :=
      ((sortBy_perm countDesc _).mem_iff).mpr hpf
    exact ⟨p, hps, hkey, hcount⟩
  · intro events threshold
    have h := pairwise_sortBy countDesc htot htrans
      ((events.foldl addEvent []).filter (fun p => decide (threshold ≤ p.count)))
    exact h.imp (fun hab => of_decide_eq_true hab)
  · intro events threshold
    have hsub : ((events.foldl addEvent []).filter
        (fun p => decide (threshold ≤ p.count))).Sublist (events.foldl addEvent []) :=
      List.filter_sublist _
    have hnd : (((events.foldl addEvent []).filter
        (fun p => decide (threshold ≤ p.count))).map patternKey).Nodup :=
      (counts_inv events).2.1.sublist (hsub.map patternKey)
    exact (((sortBy_perm countDesc _).map patternKey).nodup_iff).mpr hnd

/-- C1 witness: on the concrete scenario, the returned group meets the
threshold and counts all six events (soundness), and conversely the
over-threshold key of the first event is surfaced as a returned group with
count six (completeness). -/
theorem C1_witness :
    ((5 : Nat) ≤ sixSharePattern.count ∧
      sixSharePattern.count =
        (sixShares.filter
          (fun e => decide (eventKey e = patternKey sixSharePattern))).length) ∧
    (∃ p ∈ detect_suspicious_sharing sixShares 5,
      patternKey p =
        eventKey ⟨"api_call", "https://api.partner.com", ["user_1"], 0⟩ ∧
      p.count =
        (sixShares.filter (fun e' => decide (eventKey e' =
          eventKey ⟨"api_call", "https://api.partner.com", ["user_1"], 0⟩))).length) :=
  ⟨C1_detect_suspicious_sharing.1 sixShares 5 sixSharePattern (by decide),
   C1_detect_suspicious_sharing.2.1 sixShares 5
     ⟨"api_call", "https://api.partner.com", ["user_1"], 0⟩
     (by decide) (by decide)⟩

end Detect

/-! ### The runtime_tracking engine (context.py, tracker.py, flask_hooks.py) -/

namespace RT

/-- `DataTag` (runtime_tracking/events.py). `created_at` is the wall-clock
ISO timestamp, carried as an opaque string supplied by the caller. -/
structure DataTag where
  fingerprint : String
  field : String
  category : String
  description : String
  owner : Option String
  source : String
  preview : Option String
  created_at : String
deriving DecidableEq, Repr

/-- Lookup in a Python dict with string keys (association list in insertion
order; keys are unique by construction of `dictSet`). -/
def assocFind {β : Type} (m : List (String × β)) (k : String) : Option β :=
  (m.find? (fun p => decide (p.1 = k))).map Prod.snd

/-- Python dict assignment `m[k] = v`: overwrite in place when the key is
present (keeping its position), append otherwise. -/
def dictSet {β : Type} (m : List (String × β)) (k : String) (v : β) : List (String × β) :=
  if m.any (fun p => decide (p.1 = k)) then
    m.map (fun p => if p.1 = k then (k, v) else p)
  else m ++ [(k, v)]

/-- `RequestContext` (runtime_tracking/context.py): per-request state with
its fingerprint → tag map. -/
structure RequestContext where
  request_id : String
  user_id : Option String
  path : String
  method : String
  client_ip : Option String
  tags_by_fingerprint : List (String × DataTag)
deriving DecidableEq, Repr

/-- `RequestContext.register_tag`: fingerprint the value, build the tag with
a truncated `str(value)` preview (None when the value is None), and
overwrite the context map at that fingerprint. -/
def RequestContext.register_tag (ctx : RequestContext)
    (fieldName category description : String) (value : PyVal)
    (owner : Option String) (source : String) (now : String) :
    RequestContext × DataTag :=
  let fingerprint := create_fingerprint value
  let preview : Option String :=
    match value with
    | .none => Option.none
    | v => some ((strPy v).take 100)
  let tag : DataTag :=
    ⟨fingerprint, fieldName, category, description, owner, source, preview, now⟩
  ({ ctx with tags_by_fingerprint := dictSet ctx.tags_by_fingerprint fingerprint tag },
   tag)

/-- `RequestContext.find_tags`: the tags of the given fingerprints present
in the context map, in query order. -/
def RequestContext.find_tags (ctx : RequestContext) (fingerprints : List String) :
    List DataTag :=
  fingerprints.filterMap (fun f => assocFind ctx.tags_by_fingerprint f)

/-- `GlobalRegistry` (runtime_tracking/tracker.py): process-wide
fingerprint → tag map. -/
structure GlobalRegistry where
  tags : List (String × DataTag)
deriving DecidableEq, Repr

/-- `GlobalRegistry.register`: insert-if-absent keyed on the tag's
fingerprint. -/
def GlobalRegistry.register (reg : GlobalRegistry) (tag : DataTag) : GlobalRegistry :=
  if reg.tags.any (fun p => decide (p.1 = tag.fingerprint)) then reg
  else ⟨reg.tags ++ [(tag.fingerprint, tag)]⟩

/-- `GlobalRegistry.match_fingerprints`: the registered tags of the given
fingerprints, in query order. -/
def GlobalRegistry.match_fingerprints (reg : GlobalRegistry)
    (fingerprints : List String) : List DataTag :=
  fingerprints.filterMap (fun f => assocFind reg.tags f)

/-- `ProvenanceEvent` (runtime_tracking/events.py); `event_id` comes from a
uuid (modeled by a per-state counter) and `created_at` from the wall clock
(an opaque caller-supplied string). -/
structure ProvenanceEvent where
  event_type : String
  actor : String
  target : String
  payload : PyVal
  request_id : Option String
  user_id : Option String
  matched_tags : List DataTag
  extras : PyVal
  event_id : String
  created_at : String

/-- A row of the sqlite `fingerprints` table
(runtime_tracking/storage.py). -/
structure FingerprintRow where
  fingerprint : String
  first_seen_event_id : Option String
  last_seen_at : String
  field : String
  category : String
  description : String
  owner : Option String
deriving DecidableEq, Repr

/-- `ProvenanceStorage.upsert_fingerprint`: insert, or on fingerprint
conflict update every column except `first_seen_event_id`. -/
def upsertFingerprint (rows : List FingerprintRow) (tag : DataTag)
    (event_id : Option String) : List FingerprintRow :=
  if rows.any (fun r => decide (r.fingerprint = tag.fingerprint)) then
    rows.map (fun r =>
      if r.fingerprint = tag.fingerprint then
        { r with last_seen_at := tag.created_at, field := tag.field,
                 category := tag.category, description := tag.description,
                 owner := tag.owner }
      else r)
  else
    rows ++ [⟨tag.fingerprint, event_id, tag.created_at, tag.field,
      tag.category, tag.description, tag.owner⟩]

/-- The mutable state seen by `RuntimeTracker`: its registry, the current
request context (a contextvar), the rows of the events and fingerprints
tables, and the uuid counter. -/
structure TrackerState where
  registry : GlobalRegistry
  ctx : Option RequestContext
  events : List ProvenanceEvent
  fingerprints : List FingerprintRow
  nextId : Nat

/-- The empty engine state. -/
def initState : TrackerState := ⟨⟨[]⟩, Option.none, [], [], 0⟩

/-- The per-tag effects of `RuntimeTracker.record_event`'s loop:
`storage.upsert_fingerprint(tag, event_id)` and `registry.register(tag)`
for each matched tag. -/
def registerTagsFold (eid : String) (tags : List DataTag) (st : TrackerState) :
    TrackerState :=
  tags.foldl
    (fun s tag =>
      { s with fingerprints := upsertFingerprint s.fingerprints tag (some eid),
               registry := s.registry.register tag })
    st

/-- `RuntimeTracker.record_event`: insert the event row, then upsert the
fingerprint of every matched tag and re-register it globally. -/
def recordEventRT (st : TrackerState) (e : ProvenanceEvent) : TrackerState :=
  registerTagsFold e.event_id e.matched_tags { st with events := st.events ++ [e] }

/-- `RuntimeTracker.register_input`: register through the context when one
is active (promoting the tag globally and into the fingerprints table),
otherwise build the tag directly — note that this branch takes the preview
unconditionally, without the context's `value is not None` check. -/
def registerInputRT (st : TrackerState) (now fieldName description category : String)
    (value : PyVal) (owner : Option String) (source : String) :
    TrackerState × DataTag :=
  match st.ctx with
  | some ctx =>
      let res := ctx.register_tag fieldName category description value owner source now
      ({ st with ctx := some res.1,
                 registry := st.registry.register res.2,
                 fingerprints := upsertFingerprint st.fingerprints res.2 Option.none },
       res.2)
  | Option.none =>
      let tag : DataTag := ⟨create_fingerprint value, fieldName, category, description,
        owner, source, some ((strPy value).take 100), now⟩
      ({ st with registry := st.registry.register tag,
                 fingerprints := upsertFingerprint st.fingerprints tag Option.none },
       tag)

/-- The fingerprint-deduplication loop at the end of
`RuntimeTracker.match_payload` (`seen` accumulates fingerprints already
kept, first occurrence wins). -/
def dedupeTags : List DataTag → List String → List DataTag
  | [], _ => []
  | t :: rest, seen =>
      if t.fingerprint ∈ seen then dedupeTags rest seen
      else t :: dedupeTags rest (t.fingerprint :: seen)

/-- `RuntimeTracker.match_payload`: fingerprint every flattened leaf of the
payload, collect context matches then global-registry matches, and
deduplicate by fingerprint preserving discovery order. -/
def matchPayloadRT (st : TrackerState) (payload : PyVal) : List DataTag :=
  let fingerprints := (flatten_payload payload).map (fun p => create_fingerprint p.2)
  let matched :=
    (match st.ctx with
     | some ctx => ctx.find_tags fingerprints
     | Option.none => []) ++ st.registry.match_fingerprints fingerprints
  dedupeTags matched []

/-- `None`-tolerant string column value. -/
def optStr : Option String → PyVal
  | some s => .str s
  | Option.none => .none

/-- `None`-tolerant integer column value. -/
def optInt : Option Int → PyVal
  | some n => .int n
  | Option.none => .none

/-- The `DATA_COLLECTION` event built by `RuntimeTracker.record_collection`:
each top-level value of the request payload is matched against the global
registry only. -/
def collectionEvent (st : TrackerState) (now : String)
    (data : List (String × PyVal)) : ProvenanceEvent :=
  { event_type := "DATA_COLLECTION", actor := "flask.request",
    target := "application", payload := .dict data,
    request_id := (st.ctx.map (fun c => c.request_id)),
    user_id := (match st.ctx with | some c => c.user_id | Option.none => Option.none),
    matched_tags := data.foldl
      (fun acc kv =>
        acc ++ st.registry.match_fingerprints [create_fingerprint kv.2]) [],
    extras := .dict [],
    event_id := toString st.nextId, created_at := now }

/-- `RuntimeTracker.record_collection`. -/
def recordCollectionRT (st : TrackerState) (now : String)
    (data : List (String × PyVal)) : TrackerState :=
  recordEventRT { st with nextId := st.nextId + 1 } (collectionEvent st now data)

/-- The `DATA_STORAGE` event built by `RuntimeTracker.record_storage_event`:
the written field values are matched purely by fingerprint via
`match_payload`, and the payload wraps the fields and the instance id. -/
def storageEvent (st : TrackerState) (now model_name action : String)
    (instance_id : Option String) (field_values : List (String × PyVal))
    (owner : Option String) : ProvenanceEvent :=
  { event_type := "DATA_STORAGE", actor := model_name, target := action,
    payload := .dict [("fields", .dict field_values),
                      ("instance_id", optStr instance_id)],
    request_id := (st.ctx.map (fun c => c.request_id)),
    user_id := (match st.ctx with | some c => c.user_id | Option.none => owner),
    matched_tags := matchPayloadRT st (.dict field_values),
    extras := .dict [("owner", optStr owner)],
    event_id := toString st.nextId, created_at := now }

/-- `RuntimeTracker.record_storage_event`. -/
def recordStorageEventRT (st : TrackerState) (now model_name action : String)
    (instance_id : Option String) (field_values : List (String × PyVal))
    (owner : Option String) : TrackerState :=
  recordEventRT { st with nextId := st.nextId + 1 }
    (storageEvent st now model_name action instance_id field_values owner)

/-- The `DATA_SHARE` event built by `RuntimeTracker.record_share_event`:
the outbound payload is matched via `match_payload` and the event targets
the url. -/
def shareEvent (st : TrackerState) (now method url : String)
    (payload : List (String × PyVal)) (response_status : Option Int) :
    ProvenanceEvent :=
  { event_type := "DATA_SHARE", actor := "requests", target := url,
    payload := .dict [("method", .str method), ("payload", .dict payload),
                      ("response_status", optInt response_status)],
    request_id := (st.ctx.map (fun c => c.request_id)),
    user_id := (match st.ctx with | some c => c.user_id | Option.none => Option.none),
    matched_tags := matchPayloadRT st (.dict payload),
    extras := .dict [],
    event_id := toString st.nextId, created_at := now }

/-- `RuntimeTracker.record_share_event`. -/
def recordShareEventRT (st : TrackerState) (now method url : String)
    (payload : List (String × PyVal)) (response_status : Option Int) : TrackerState :=
  recordEventRT { st with nextId := st.nextId + 1 }
    (shareEvent st now method url payload response_status)

/-- The operations a request lifecycle performs against the engine.
`now` arguments carry the wall-clock readings the code would take. -/
inductive Op where
  | startRequest (request_id : String) (user_id : Option String)
      (path method : String) (client_ip : Option String)
  | endRequest
  | registerInput (now fieldName description category : String) (value : PyVal)
      (owner : Option String) (source : String)
  | recordCollection (now : String) (data : List (String × PyVal))
  | recordStorage (now model_name action : String) (instance_id : Option String)
      (field_values : List (String × PyVal)) (owner : Option String)
  | recordShare (now method url : String) (payload : List (String × PyVal))
      (response_status : Option Int)

/-- One engine step: `start_request`/`end_request` from context.py, the
rest dispatching to the tracker operations above. -/
def step (st : TrackerState) : Op → TrackerState
  | .startRequest rid uid path method ip =>
      { st with ctx := some ⟨rid, uid, path, method, ip, []⟩ }
  | .endRequest => { st with ctx := Option.none }
  | .registerInput now fieldName description category value owner source =>
      (registerInputRT st now fieldName description category value owner source).1
  | .recordCollection now data => recordCollectionRT st now data
  | .recordStorage now mn action iid fv owner =>
      recordStorageEventRT st now mn action iid fv owner
  | .recordShare now method url payload status =>
      recordShareEventRT st now method url payload status

/-- Run a trace of operations from a given state. -/
def runFrom (st : TrackerState) (ops : List Op) : TrackerState :=
  ops.foldl step st

/-- Run a trace of operations from the empty engine state. -/
def runTrace (ops : List Op) : TrackerState :=
  runFrom initState ops

/-- The values registered as tagged input somewhere in a trace. -/
def registeredValues (ops : List Op) : List PyVal :=
  ops.filterMap (fun op =>
    match op with
    | .registerInput _ _ _ _ v _ _ => some v
    | _ => Option.none)

end RT

namespace RT

theorem assocFind_spec {β : Type} (m : List (String × β)) (k : String) (v : β)
    (h : assocFind m k = some v) : ∃ p ∈ m, p.1 = k ∧ p.2 = v := by
  unfold assocFind at h
  cases hf : m.find? (fun p => decide (p.1 = k)) with
  | none => rw [hf] at h; simp at h
  | some pr =>
    rw [hf] at h
    have hv : pr.2 = v := by simpa using h
    have hk := List.find?_some hf
    exact ⟨pr, List.mem_of_find?_eq_some hf, by simpa using hk, hv⟩

theorem dictSet_mem {β : Type} (m : List (String × β)) (k : String) (v : β) :
    ∀ p ∈ dictSet m k v, p ∈ m ∨ p = (k, v) := by
  intro p hp
  unfold dictSet at hp
  by_cases hin : m.any (fun p => decide (p.1 = k))
  · rw [if_pos hin] at hp
    obtain ⟨q, hq, hqe⟩ := List.mem_map.mp hp
    by_cases hk : q.1 = k
    · rw [if_pos hk] at hqe
      exact Or.inr hqe.symm
    · rw [if_neg hk] at hqe
      exact Or.inl (hqe ▸ hq)
  · rw [if_neg hin] at hp
    rcases List.mem_append.mp hp with h1 | h2
    · exact Or.inl h1
    · exact Or.inr (by simpa using h2)

theorem register_mem (reg : GlobalRegistry) (t : DataTag) :
    ∀ p ∈ (reg.register t).tags, p ∈ reg.tags ∨ p = (t.fingerprint, t) := by
  intro p hp
  unfold GlobalRegistry.register at hp
  by_cases hin : reg.tags.any (fun p => decide (p.1 = t.fingerprint))
  · rw [if_pos hin] at hp
    exact Or.inl hp
  · rw [if_neg hin] at hp
    rcases List.mem_append.mp hp with h1 | h2
    · exact Or.inl h1
    · exact Or.inr (by simpa using h2)

theorem find_tags_mem (ctx : RequestContext) (fps : List String) :
    ∀ t ∈ ctx.find_tags fps,
    ∃ p ∈ ctx.tags_by_fingerprint, p.2 = t ∧ p.1 ∈ fps := by
  intro t ht
  unfold RequestContext.find_tags at ht
  obtain ⟨f, hf, hfind⟩ := List.mem_filterMap.mp ht
  obtain ⟨p, hp, hk, hv⟩ := assocFind_spec _ _ _ hfind
  exact ⟨p, hp, hv, hk ▸ hf⟩

theorem match_fingerprints_mem (reg : GlobalRegistry) (fps : List String) :
    ∀ t ∈ reg.match_fingerprints fps,
    ∃ p ∈ reg.tags, p.2 = t ∧ p.1 ∈ fps := by
  intro t ht
  unfold GlobalRegistry.match_fingerprints at ht
  obtain ⟨f, hf, hfind⟩ := List.mem_filterMap.mp ht
  obtain ⟨p, hp, hk, hv⟩ := assocFind_spec _ _ _ hfind
  exact ⟨p, hp, hv, hk ▸ hf⟩

theorem dedupeTags_subset : ∀ (l : List DataTag) (seen : List String),
    ∀ t ∈ dedupeTags l seen, t ∈ l := by
  intro l
  induction l with
  | nil =>
    intro seen t ht
    rw [show dedupeTags [] seen = [] from rfl] at ht
    exact absurd ht (List.not_mem_nil t)
  | cons x rest ih =>
    intro seen t ht
    unfold dedupeTags at ht
    by_cases hx : x.fingerprint ∈ seen
    · rw [if_pos hx] at ht
      exact List.mem_cons_of_mem x (ih _ t ht)
    · rw [if_neg hx] at ht
      rcases List.mem_cons.mp ht with h1 | h2
      · exact h1 ▸ List.mem_cons_self x rest
      · exact List.mem_cons_of_mem x (ih _ t h2)

theorem matchPayload_mem (st : TrackerState) (payload : PyVal) :
    ∀ t ∈ matchPayloadRT st payload,
    (∃ c, st.ctx = some c ∧ ∃ p ∈ c.tags_by_fingerprint, p.2 = t) ∨
    (∃ p ∈ st.registry.tags, p.2 = t) := by
  intro t ht
  unfold matchPayloadRT at ht
  have ht' := dedupeTags_subset _ _ t ht
  rcases List.mem_append.mp ht' with hctx | hreg
  · cases hc : st.ctx with
    | none => rw [hc] at hctx; simp at hctx
    | some c =>
      rw [hc] at hctx
      obtain ⟨p, hp, hv, _⟩ := find_tags_mem c _ t hctx
      exact Or.inl ⟨c, rfl, p, hp, hv⟩
  · obtain ⟨p, hp, hv, _⟩ := match_fingerprints_mem st.registry _ t hreg
    exact Or.inr ⟨p, hp, hv⟩

/-- Keys of both fingerprint → tag maps agree with their tag's fingerprint. -/
def WellKeyedMap (m : List (String × DataTag)) : Prop :=
  ∀ p ∈ m, p.2.fingerprint = p.1

/-- Both stores of the engine are well-keyed. -/
def WellKeyed (st : TrackerState) : Prop :=
  (∀ c, st.ctx = some c → WellKeyedMap c.tags_by_fingerprint) ∧
  WellKeyedMap st.registry.tags

theorem matchPayload_fp (st : TrackerState) (payload : PyVal)
    (hwk : WellKeyed st) :
    ∀ t ∈ matchPayloadRT st payload,
    t.fingerprint ∈ (flatten_payload payload).map (fun p => create_fingerprint p.2) := by
  intro t ht
  unfold matchPayloadRT at ht
  have ht' := dedupeTags_subset _ _ t ht
  rcases List.mem_append.mp ht' with hctx | hreg
  · cases hc : st.ctx with
    | none => rw [hc] at hctx; simp at hctx
    | some c =>
      rw [hc] at hctx
      obtain ⟨p, hp, hv, hf⟩ := find_tags_mem c _ t hctx
      have := hwk.1 c hc p hp
      rw [← hv, this]
      exact hf
  · obtain ⟨p, hp, hv, hf⟩ := match_fingerprints_mem st.registry _ t hreg
    have := hwk.2 p hp
    rw [← hv, this]
    exact hf

theorem flatten_dict_fps (entries : List (String × PyVal)) :
    (flatten_payload (.dict entries)).map (fun p => create_fingerprint p.2) =
      entries.flatMap (fun kv =>
        (flatten_payload kv.2).map (fun p => create_fingerprint p.2)) := by
  show (flattenDictEntries entries).map (fun p => create_fingerprint p.2) = _
  induction entries with
  | nil => simp [flattenDictEntries]
  | cons kv rest ih =>
    cases kv with
    | mk k v =>
      simp only [flattenDictEntries, List.map_append, List.flatMap_cons, ih,
        List.map_map]
      congr 1

theorem registerTagsFold_events (eid : String) :
    ∀ (tags : List DataTag) (st : TrackerState),
    (registerTagsFold eid tags st).events = st.events := by
  intro tags
  induction tags with
  | nil => intro st; rfl
  | cons t rest ih =>
    intro st
    show (registerTagsFold eid rest _).events = st.events
    rw [ih]

theorem registerTagsFold_ctx (eid : String) :
    ∀ (tags : List DataTag) (st : TrackerState),
    (registerTagsFold eid tags st).ctx = st.ctx := by
  intro tags
  induction tags with
  | nil => intro st; rfl
  | cons t rest ih =>
    intro st
    show (registerTagsFold eid rest _).ctx = st.ctx
    rw [ih]

theorem registerTagsFold_registry_mem (eid : String) :
    ∀ (tags : List DataTag) (st : TrackerState),
    ∀ p ∈ (registerTagsFold eid tags st).registry.tags,
    p ∈ st.registry.tags ∨ ∃ t ∈ tags, p = (t.fingerprint, t) := by
  intro tags
  induction tags with
  | nil => intro st p hp; exact Or.inl hp
  | cons t rest ih =>
    intro st p hp
    have hstep := ih _ p hp
    rcases hstep with h1 | h2
    · rcases register_mem st.registry t p h1 with ha | hb
      · exact Or.inl ha
      · exact Or.inr ⟨t, List.mem_cons_self t rest, hb⟩
    · obtain ⟨t', ht', he⟩ := h2
      exact Or.inr ⟨t', List.mem_cons_of_mem t ht', he⟩

theorem recordEventRT_events (st : TrackerState) (e : ProvenanceEvent) :
    (recordEventRT st e).events = st.events ++ [e] := by
  unfold recordEventRT
  rw [registerTagsFold_events]

theorem recordEventRT_ctx (st : TrackerState) (e : ProvenanceEvent) :
    (recordEventRT st e).ctx = st.ctx := by
  unfold recordEventRT
  rw [registerTagsFold_ctx]

theorem recordEventRT_registry_mem (st : TrackerState) (e : ProvenanceEvent) :
    ∀ p ∈ (recordEventRT st e).registry.tags,
    p ∈ st.registry.tags ∨ ∃ t ∈ e.matched_tags, p = (t.fingerprint, t) := by
  intro p hp
  unfold recordEventRT at hp
  exact registerTagsFold_registry_mem e.event_id e.matched_tags
    { st with events := st.events ++ [e] } p hp

end RT

namespace RT

/-- The top-level entries of a dict payload. -/
def topEntries : PyVal → List (String × PyVal)
  | .dict entries => entries
  | _ => []

/-- Every tag reachable in the state (context map, global registry, or the
matched tags of a recorded event) has the fingerprint of some value in
`V`. -/
def OriginOK (V : List PyVal) (st : TrackerState) : Prop :=
  (∀ c, st.ctx = some c → ∀ p ∈ c.tags_by_fingerprint,
      ∃ v ∈ V, create_fingerprint v = p.2.fingerprint) ∧
  (∀ p ∈ st.registry.tags, ∃ v ∈ V, create_fingerprint v = p.2.fingerprint) ∧
  (∀ e ∈ st.events, ∀ t ∈ e.matched_tags,
      ∃ v ∈ V, create_fingerprint v = t.fingerprint)

/-- Shape of a recorded event: matched tags of storage/share events carry
the fingerprint of a flattened leaf of the event payload; matched tags of
collection events carry the fingerprint of a top-level payload value. -/
def EventShapeOK (e : ProvenanceEvent) : Prop :=
  ((e.event_type = "DATA_STORAGE" ∨ e.event_type = "DATA_SHARE") →
    ∀ t ∈ e.matched_tags,
      t.fingerprint ∈ (flatten_payload e.payload).map (fun p => create_fingerprint p.2)) ∧
  (e.event_type = "DATA_COLLECTION" →
    ∀ t ∈ e.matched_tags,
      ∃ kv ∈ topEntries e.payload, create_fingerprint kv.2 = t.fingerprint)

/-- The engine invariant threaded through a trace. -/
def TraceInv (V : List PyVal) (st : TrackerState) : Prop :=
  WellKeyed st ∧ OriginOK V st ∧ ∀ e ∈ st.events, EventShapeOK e

theorem originOK_mono {V V' : List PyVal} (st : TrackerState)
    (hsub : V ⊆ V') (h : OriginOK V st) : OriginOK V' st := by
  obtain ⟨h1, h2, h3⟩ := h
  refine ⟨?_, ?_, ?_⟩
  · intro c hc p hp
    obtain ⟨v, hv, he⟩ := h1 c hc p hp
    exact ⟨v, hsub hv, he⟩
  · intro p hp
    obtain ⟨v, hv, he⟩ := h2 p hp
    exact ⟨v, hsub hv, he⟩
  · intro e he t ht
    obtain ⟨v, hv, hfp⟩ := h3 e he t ht
    exact ⟨v, hsub hv, hfp⟩

theorem traceInv_mono {V V' : List PyVal} (st : TrackerState)
    (hsub : V ⊆ V') (h : TraceInv V st) : TraceInv V' st :=
  ⟨h.1, originOK_mono st hsub h.2.1, h.2.2⟩

theorem recordEventRT_inv (V : List PyVal) (st : TrackerState) (e : ProvenanceEvent)
    (h : TraceInv V st)
    (he_origin : ∀ t ∈ e.matched_tags, ∃ v ∈ V, create_fingerprint v = t.fingerprint)
    (he_shape : EventShapeOK e) :
    TraceInv V (recordEventRT st e) := by
  obtain ⟨⟨hwc, hwr⟩, ⟨ho1, ho2, ho3⟩, hs⟩ := h
  refine ⟨⟨?_, ?_⟩, ⟨?_, ?_, ?_⟩, ?_⟩
  · intro c hc
    rw [recordEventRT_ctx] at hc
    exact hwc c hc
  · intro p hp
    rcases recordEventRT_registry_mem st e p hp with h1 | h2
    · exact hwr p h1
    · obtain ⟨t, _, rfl⟩ := h2
      rfl
  · intro c hc
    rw [recordEventRT_ctx] at hc
    exact ho1 c hc
  · intro p hp
    rcases recordEventRT_registry_mem st e p hp with h1 | h2
    · exact ho2 p h1
    · obtain ⟨t, ht, rfl⟩ := h2
      exact he_origin t ht
  · intro e' he' t ht
    rw [recordEventRT_events] at he'
    rcases List.mem_append.mp he' with h1 | h2
    · exact ho3 e' h1 t ht
    · have heq : e' = e := by simpa using h2
      subst heq
      exact he_origin t ht
  · intro e' he'
    rw [recordEventRT_events] at he'
    rcases List.mem_append.mp he' with h1 | h2
    · exact hs e' h1
    · have heq : e' = e := by simpa using h2
      subst heq
      exact he_shape

theorem foldl_append_mem {α β : Type} (f : β → List α) :
    ∀ (l : List β) (acc : List α),
    ∀ x ∈ l.foldl (fun a b => a ++ f b) acc, x ∈ acc ∨ ∃ b ∈ l, x ∈ f b := by
  intro l
  induction l with
  | nil => intro acc x hx; exact Or.inl hx
  | cons b rest ih =>
    intro acc x hx
    rcases ih (acc ++ f b) x hx with h1 | h2
    · rcases List.mem_append.mp h1 with ha | hb
      · exact Or.inl ha
      · exact Or.inr ⟨b, List.mem_cons_self b rest, hb⟩
    · obtain ⟨b', hb', hx'⟩ := h2
      exact Or.inr ⟨b', List.mem_cons_of_mem b hb', hx'⟩

theorem register_tag_fingerprint (ctx : RequestContext)
    (f c d : String) (v : PyVal) (o : Option String) (s n : String) :
    (ctx.register_tag f c d v o s n).2.fingerprint = create_fingerprint v := rfl

theorem registerInput_inv (V : List PyVal) (st : TrackerState)
    (now fieldName description category : String) (value : PyVal)
    (owner : Option String) (source : String) (h : TraceInv V st) :
    TraceInv (V ++ [value])
      ((registerInputRT st now fieldName description category value owner source).1) := by
  obtain ⟨⟨hwc, hwr⟩, ⟨ho1, ho2, ho3⟩, hs⟩ := h
  have hval : value ∈ V ++ [value] :=
    List.mem_append_right V (List.mem_singleton.mpr rfl)
  have hsub : V ⊆ V ++ [value] := List.subset_append_left _ _
  cases hctx : st.ctx with
  | none =>
    simp only [registerInputRT, hctx]
    refine ⟨⟨?_, ?_⟩, ⟨?_, ?_, ?_⟩, ?_⟩
    · intro c hc
      exact absurd hc (by simp)
    · intro p hp
      rcases register_mem st.registry _ p hp with h1 | h2
      · exact hwr p h1
      · rw [h2]
    · intro c hc
      exact absurd hc (by simp)
    · intro p hp
      rcases register_mem st.registry _ p hp with h1 | h2
      · obtain ⟨v, hv, he⟩ := ho2 p h1
        exact ⟨v, hsub hv, he⟩
      · exact ⟨value, hval, by subst h2; rfl⟩
    · intro e he t ht
      obtain ⟨v, hv, he'⟩ := ho3 e he t ht
      exact ⟨v, hsub hv, he'⟩
    · exact hs
  | some ctx =>
    simp only [registerInputRT, hctx]
    refine ⟨⟨?_, ?_⟩, ⟨?_, ?_, ?_⟩, ?_⟩
    · intro c hc
      have hc' : c = (ctx.register_tag fieldName category description value
          owner source now).1 := by
        simpa using hc.symm
      subst hc'
      intro p hp
      rcases dictSet_mem _ _ _ p hp with h1 | h2
      · exact hwc ctx hctx p h1
      · rw [h2]
    · intro p hp
      rcases register_mem st.registry _ p hp with h1 | h2
      · exact hwr p h1
      · rw [h2]
    · intro c hc
      have hc' : c = (ctx.register_tag fieldName category description value
          owner source now).1 := by
        simpa using hc.symm
      subst hc'
      intro p hp
      rcases dictSet_mem _ _ _ p hp with h1 | h2
      · obtain ⟨v, hv, he⟩ := ho1 ctx hctx p h1
        exact ⟨v, hsub hv, he⟩
      · exact ⟨value, hval, by subst h2; exact (register_tag_fingerprint ctx fieldName category description value owner source now).symm⟩
    · intro p hp
      rcases register_mem st.registry _ p hp with h1 | h2
      · obtain ⟨v, hv, he⟩ := ho2 p h1
        exact ⟨v, hsub hv, he⟩
      · exact ⟨value, hval, by subst h2; exact (register_tag_fingerprint ctx fieldName category description value owner source now).symm⟩
    · intro e he t ht
      obtain ⟨v, hv, he'⟩ := ho3 e he t ht
      exact ⟨v, hsub hv, he'⟩
    · exact hs

theorem collectionEvent_matched (st : TrackerState) (now : String)
    (data : List (String × PyVal)) :
    (collectionEvent st now data).matched_tags = data.foldl
      (fun acc kv =>
        acc ++ st.registry.match_fingerprints [create_fingerprint kv.2]) [] := rfl

theorem storageEvent_matched (st : TrackerState) (now mn action : String)
    (iid : Option String) (fv : List (String × PyVal)) (owner : Option String) :
    (storageEvent st now mn action iid fv owner).matched_tags =
      matchPayloadRT st (.dict fv) := rfl

theorem storageEvent_payload (st : TrackerState) (now mn action : String)
    (iid : Option String) (fv : List (String × PyVal)) (owner : Option String) :
    (storageEvent st now mn action iid fv owner).payload =
      .dict [("fields", .dict fv), ("instance_id", optStr iid)] := rfl

theorem shareEvent_matched (st : TrackerState) (now method url : String)
    (payload : List (String × PyVal)) (status : Option Int) :
    (shareEvent st now method url payload status).matched_tags =
      matchPayloadRT st (.dict payload) := rfl

theorem shareEvent_payload (st : TrackerState) (now method url : String)
    (payload : List (String × PyVal)) (status : Option Int) :
    (shareEvent st now method url payload status).payload =
      .dict [("method", .str method), ("payload", .dict payload),
             ("response_status", optInt status)] := rfl

theorem recordCollection_inv (V : List PyVal) (st : TrackerState) (now : String)
    (data : List (String × PyVal)) (h : TraceInv V st) :
    TraceInv V (recordCollectionRT st now data) := by
  obtain ⟨⟨hwc, hwr⟩, ⟨ho1, ho2, ho3⟩, hs⟩ := h
  apply recordEventRT_inv
  · exact ⟨⟨hwc, hwr⟩, ⟨ho1, ho2, ho3⟩, hs⟩
  · intro t ht
    rw [collectionEvent_matched] at ht
    rcases foldl_append_mem _ data [] t ht with h0 | ⟨kv, _, ht'⟩
    · exact absurd h0 (List.not_mem_nil t)
    · obtain ⟨p, hp, hv, _⟩ := match_fingerprints_mem st.registry _ t ht'
      obtain ⟨v, hvV, he⟩ := ho2 p hp
      exact ⟨v, hvV, hv ▸ he⟩
  · constructor
    · intro habs
      rw [show (collectionEvent st now data).event_type = "DATA_COLLECTION" from rfl]
        at habs
      exact absurd habs (by decide)
    · intro _ t ht
      rw [collectionEvent_matched] at ht
      rcases foldl_append_mem _ data [] t ht with h0 | ⟨kv, hkv, ht'⟩
      · exact absurd h0 (List.not_mem_nil t)
      · obtain ⟨p, hp, hv, hf⟩ := match_fingerprints_mem st.registry _ t ht'
        have hfp : p.1 = create_fingerprint kv.2 := by simpa using hf
        refine ⟨kv, ?_, ?_⟩
        · rw [show topEntries (collectionEvent st now data).payload = data from rfl]
          exact hkv
        · rw [← hv, hwr p hp, hfp]

theorem storage_payload_lift (fv : List (String × PyVal)) (iid : Option String)
    (fp : String)
    (hmem : fp ∈ (flatten_payload (.dict fv)).map (fun p => create_fingerprint p.2)) :
    fp ∈ (flatten_payload
      (.dict [("fields", .dict fv), ("instance_id", optStr iid)])).map
      (fun p => create_fingerprint p.2) := by
  rw [flatten_dict_fps]
  simp only [List.flatMap_cons, List.flatMap_nil, List.append_nil]
  exact List.mem_append_left _ hmem

theorem share_payload_lift (payload : List (String × PyVal)) (method : String)
    (status : Option Int) (fp : String)
    (hmem : fp ∈ (flatten_payload (.dict payload)).map
      (fun p => create_fingerprint p.2)) :
    fp ∈ (flatten_payload
      (.dict [("method", .str method), ("payload", .dict payload),
              ("response_status", optInt status)])).map
      (fun p => create_fingerprint p.2) := by
  rw [flatten_dict_fps]
  simp only [List.flatMap_cons, List.flatMap_nil, List.append_nil]
  exact List.mem_append_right _ (List.mem_append_left _ hmem)

theorem recordStorage_inv (V : List PyVal) (st : TrackerState)
    (now model_name action : String) (instance_id : Option String)
    (field_values : List (String × PyVal)) (owner : Option String)
    (h : TraceInv V st) :
    TraceInv V (recordStorageEventRT st now model_name action instance_id
      field_values owner) := by
  obtain ⟨⟨hwc, hwr⟩, ⟨ho1, ho2, ho3⟩, hs⟩ := h
  apply recordEventRT_inv
  · exact ⟨⟨hwc, hwr⟩, ⟨ho1, ho2, ho3⟩, hs⟩
  · intro t ht
    rw [storageEvent_matched] at ht
    rcases matchPayload_mem st (.dict field_values) t ht with hcase | hcase
    · obtain ⟨c, hc, p, hp, hv⟩ := hcase
      obtain ⟨v, hvV, he⟩ := ho1 c hc p hp
      exact ⟨v, hvV, hv ▸ he⟩
    · obtain ⟨p, hp, hv⟩ := hcase
      obtain ⟨v, hvV, he⟩ := ho2 p hp
      exact ⟨v, hvV, hv ▸ he⟩
  · constructor
    · intro _ t ht
      rw [storageEvent_matched] at ht
      rw [storageEvent_payload]
      exact storage_payload_lift field_values instance_id t.fingerprint
        (matchPayload_fp st (.dict field_values) ⟨hwc, hwr⟩ t ht)
    · intro habs
      rw [show (storageEvent st now model_name action instance_id field_values
        owner).event_type = "DATA_STORAGE" from rfl] at habs
      exact absurd habs (by decide)

theorem recordShare_inv (V : List PyVal) (st : TrackerState)
    (now method url : String) (payload : List (String × PyVal))
    (response_status : Option Int) (h : TraceInv V st) :
    TraceInv V (recordShareEventRT st now method url payload response_status) := by
  obtain ⟨⟨hwc, hwr⟩, ⟨ho1, ho2, ho3⟩, hs⟩ := h
  apply recordEventRT_inv
  · exact ⟨⟨hwc, hwr⟩, ⟨ho1, ho2, ho3⟩, hs⟩
  · intro t ht
    rw [shareEvent_matched] at ht
    rcases matchPayload_mem st (.dict payload) t ht with hcase | hcase
    · obtain ⟨c, hc, p, hp, hv⟩ := hcase
      obtain ⟨v, hvV, he⟩ := ho1 c hc p hp
      exact ⟨v, hvV, hv ▸ he⟩
    · obtain ⟨p, hp, hv⟩ := hcase
      obtain ⟨v, hvV, he⟩ := ho2 p hp
      exact ⟨v, hvV, hv ▸ he⟩
  · constructor
    · intro _ t ht
      rw [shareEvent_matched] at ht
      rw [shareEvent_payload]
      exact share_payload_lift payload method response_status t.fingerprint
        (matchPayload_fp st (.dict payload) ⟨hwc, hwr⟩ t ht)
    · intro habs
      rw [show (shareEvent st now method url payload
        response_status).event_type = "DATA_SHARE" from rfl] at habs
      exact absurd habs (by decide)

/-- The values a single operation registers. -/
def opValues : Op → List PyVal
  | .registerInput _ _ _ _ v _ _ => [v]
  | _ => []

theorem step_inv (V : List PyVal) (st : TrackerState) (op : Op)
    (h : TraceInv V st) : TraceInv (V ++ opValues op) (step st op) := by
  cases op with
  | startRequest rid uid path method ip =>
    rw [show opValues (Op.startRequest rid uid path method ip) = [] from rfl,
      List.append_nil]
    simp only [step]
    obtain ⟨⟨hwc, hwr⟩, ⟨ho1, ho2, ho3⟩, hs⟩ := h
    refine ⟨⟨?_, hwr⟩, ⟨?_, ho2, ho3⟩, hs⟩
    · intro c hc
      have hc' : c = ⟨rid, uid, path, method, ip, []⟩ := by simpa using hc.symm
      subst hc'
      intro p hp
      exact absurd hp (List.not_mem_nil p)
    · intro c hc
      have hc' : c = ⟨rid, uid, path, method, ip, []⟩ := by simpa using hc.symm
      subst hc'
      intro p hp
      exact absurd hp (List.not_mem_nil p)
  | endRequest =>
    rw [show opValues Op.endRequest = [] from rfl, List.append_nil]
    simp only [step]
    obtain ⟨⟨hwc, hwr⟩, ⟨ho1, ho2, ho3⟩, hs⟩ := h
    refine ⟨⟨?_, hwr⟩, ⟨?_, ho2, ho3⟩, hs⟩
    · intro c hc
      exact absurd hc (by simp)
    · intro c hc
      exact absurd hc (by simp)
  | registerInput now fieldName description category value owner source =>
    exact registerInput_inv V st now fieldName description category value owner source h
  | recordCollection now data =>
    rw [show opValues (Op.recordCollection now data) = [] from rfl, List.append_nil]
    exact recordCollection_inv V st now data h
  | recordStorage now mn action iid fv owner =>
    rw [show opValues (Op.recordStorage now mn action iid fv owner) = [] from rfl,
      List.append_nil]
    exact recordStorage_inv V st now mn action iid fv owner h
  | recordShare now method url payload status =>
    rw [show opValues (Op.recordShare now method url payload status) = [] from rfl,
      List.append_nil]
    exact recordShare_inv V st now method url payload status h

theorem registeredValues_cons (op : Op) (rest : List Op) :
    registeredValues (op :: rest) = opValues op ++ registeredValues rest := by
  cases op <;> simp [registeredValues, opValues]

theorem runFrom_inv : ∀ (ops : List Op) (V : List PyVal) (st : TrackerState),
    TraceInv V st → TraceInv (V ++ registeredValues ops) (runFrom st ops) := by
  intro ops
  induction ops with
  | nil =>
    intro V st h
    simpa [registeredValues, runFrom] using h
  | cons op rest ih =>
    intro V st h
    rw [registeredValues_cons, ← List.append_assoc]
    exact ih (V ++ opValues op) (step st op) (step_inv V st op h)

theorem initState_inv : TraceInv [] initState := by
  refine ⟨⟨?_, ?_⟩, ⟨?_, ?_, ?_⟩, ?_⟩
  · intro c hc; exact absurd hc (by simp [initState])
  · intro p hp; exact absurd hp (List.not_mem_nil p)
  · intro c hc; exact absurd hc (by simp [initState])
  · intro p hp; exact absurd hp (List.not_mem_nil p)
  · intro e he; exact absurd he (List.not_mem_nil e)
  · intro e he; exact absurd he (List.not_mem_nil e)

theorem runTrace_inv (ops : List Op) :
    TraceInv (registeredValues ops) (runTrace ops) := by
  have h := runFrom_inv ops [] initState initState_inv
  simpa using h

/-- The trace that refutes the leaf-fingerprint reading for
`DATA_COLLECTION` events: a nested dict value is registered at ingress and
then collected inside a request payload. -/
def c3Trace : List Op :=
  [.startRequest "req-1" Option.none "/" "POST" Option.none,
   .registerInput "" "profile" "Nested profile blob" "personal.profile"
     (.dict [("b", .int 1)]) Option.none "HTTP POST /",
   .recordCollection "" [("a", .dict [("b", .int 1)])]]

/-- A default event used only to project out of a computed list. -/
def c3DefaultEvent : ProvenanceEvent :=
  ⟨"", "", "", .none, Option.none, Option.none, [], .none, "", ""⟩

/-- A default tag used only to project out of a computed list. -/
def c3DefaultTag : DataTag := ⟨"", "", "", "", Option.none, "", Option.none, ""⟩

/-- The single event recorded by `c3Trace`. -/
def c3Event : ProvenanceEvent := ((runTrace c3Trace).events).getD 0 c3DefaultEvent

/-- The single matched tag of that event. -/
def c3Tag : DataTag := (c3Event.matched_tags).getD 0 c3DefaultTag

/-- C3 counterexample: in the `DATA_COLLECTION` event recorded by
`record_collection`, the matched tag's fingerprint is that of a nested
top-level dict value of the payload, which is **not** the fingerprint of
any flattened leaf of the payload — `record_collection` fingerprints whole
top-level values, unlike the flatten-and-match used for storage/share
events. -/
theorem C3_counterexample :
    (runTrace c3Trace).events.map
        (fun e => (e.event_type, e.matched_tags.map (fun t => t.fingerprint))) =
      [("DATA_COLLECTION", [create_fingerprint (.dict [("b", .int 1)])])] ∧
    create_fingerprint (.dict [("b", .int 1)]) ∉
      (flatten_payload (.dict [("a", .dict [("b", .int 1)])])).map
        (fun p => create_fingerprint p.2) := by
  constructor
  · rfl
  · decide

/-- C3 (amended): over any trace of engine operations, every tag in any
recorded event's matched tags was registered for some input value with that
fingerprint; for `DATA_STORAGE` and `DATA_SHARE` events that fingerprint is
the fingerprint of a flattened leaf of the event payload, while for
`DATA_COLLECTION` events it is the fingerprint of a top-level payload value
(not necessarily a leaf); hence a value never registered as tagged input —
with no fingerprint collision against any registered value — never appears
in any event's matched tags. -/
theorem C3_matched_tags_provenance :
    (∀ (ops : List Op), ∀ e ∈ (runTrace ops).events, ∀ t ∈ e.matched_tags,
        ∃ v ∈ registeredValues ops, create_fingerprint v = t.fingerprint) ∧
    (∀ (ops : List Op), ∀ e ∈ (runTrace ops).events,
        (e.event_type = "DATA_STORAGE" ∨ e.event_type = "DATA_SHARE") →
        ∀ t ∈ e.matched_tags,
          t.fingerprint ∈
            (flatten_payload e.payload).map (fun p => create_fingerprint p.2)) ∧
    (∀ (ops : List Op), ∀ e ∈ (runTrace ops).events,
        e.event_type = "DATA_COLLECTION" →
        ∀ t ∈ e.matched_tags,
          ∃ kv ∈ topEntries e.payload, create_fingerprint kv.2 = t.fingerprint) ∧
    (∀ (ops : List Op) (c : PyVal),
        (∀ v ∈ registeredValues ops,
          create_fingerprint v ≠ create_fingerprint c) →
        ∀ e ∈ (runTrace ops).events, ∀ t ∈ e.matched_tags,
          t.fingerprint ≠ create_fingerprint c) := by
  refine ⟨?_, ?_, ?_, ?_⟩
  · intro ops e he t ht
    exact (runTrace_inv ops).2.1.2.2 e he t ht
  · intro ops e he htype t ht
    exact ((runTrace_inv ops).2.2 e he).1 htype t ht
  · intro ops e he htype t ht
    exact ((runTrace_inv ops).2.2 e he).2 htype t ht
  · intro ops c hne e he t ht
    obtain ⟨v, hv, hfp⟩ := (runTrace_inv ops).2.1.2.2 e he t ht
    intro heq
    exact hne v hv (hfp.trans heq)

/-- C3 witness: on the concrete trace, the matched tag's fingerprint is not
the fingerprint of the literal constant `"never-registered"`. -/
theorem C3_witness :
    c3Tag.fingerprint ≠ create_fingerprint (PyVal.str "never-registered") := by
  have hev : (runTrace c3Trace).events = [c3Event] := rfl
  have htg : c3Event.matched_tags = [c3Tag] := rfl
  exact C3_matched_tags_provenance.2.2.2 c3Trace (PyVal.str "never-registered")
    (by decide) c3Event (by rw [hev]; exact List.mem_singleton.mpr rfl) c3Tag
    (by rw [htg]; exact List.mem_singleton.mpr rfl)

/-- A request in which the value `"old@example.com"` was registered under
the field name `User.email`. -/
def c7Trace : List Op :=
  [.startRequest "req-1" (some "u1") "/signup" "POST" Option.none,
   .registerInput "" "User.email" "User email address" "contact.email"
     (.str "old@example.com") (some "u1") "model:User"]

/-- C7 counterexample: the current request context holds a tag registered
under field name `User.email`, yet a storage write of the `User.email`
column with a re-encoded value (different fingerprint) matches nothing —
there is no (entity-type, field-name) lookup tier; matching is fingerprint
only. -/
theorem C7_counterexample :
    ((runTrace c7Trace).ctx.map
        (fun c => c.tags_by_fingerprint.map (fun p => p.2.field))) =
      some ["User.email"] ∧
    (recordStorageEventRT (runTrace c7Trace) "" "User" "insert" (some "1")
        [("email", .str "new@example.com")] (some "u1")).events.map
      (fun e => e.matched_tags) = [[]] ∧
    create_fingerprint (.str "old@example.com") ≠
      create_fingerprint (.str "new@example.com") := by
  refine ⟨rfl, rfl, by decide⟩

/-- A request registering `"same@example.com"` under field `User.email`,
followed below by a storage write of an unrelated model and field carrying
the same value. -/
def c7TraceB : List Op :=
  [.startRequest "req-2" (some "u1") "/signup" "POST" Option.none,
   .registerInput "" "User.email" "User email address" "contact.email"
     (.str "same@example.com") (some "u1") "model:User"]

/-- C7 (amended): the storage interceptor's matching is purely
fingerprint-based — the matched tags of a `DATA_STORAGE` event are exactly
`match_payload` over the written field values (context first, then global
registry, deduplicated), every matched tag carries the fingerprint of a
flattened leaf of the field values, and a tag registered under one field
name matches a write of the same value under any other model and field
name. -/
theorem C7_storage_match_fingerprint_only :
    (∀ (st : TrackerState) (now mn action : String) (iid : Option String)
        (fv : List (String × PyVal)) (owner : Option String),
      (storageEvent st now mn action iid fv owner).matched_tags =
        matchPayloadRT st (.dict fv)) ∧
    (∀ (st : TrackerState) (p : PyVal), WellKeyed st →
      ∀ t ∈ matchPayloadRT st p,
        t.fingerprint ∈
          (flatten_payload p).map (fun q => create_fingerprint q.2)) ∧
    (recordStorageEventRT (runTrace c7TraceB) "" "Expense" "insert" (some "2")
        [("note", .str "same@example.com")] Option.none).events.map
      (fun e => e.matched_tags.map (fun t => t.field)) = [["User.email"]] := by
  refine ⟨fun st now mn action iid fv owner => rfl, ?_, rfl⟩
  intro st p hwk t ht
  exact matchPayload_fp st p hwk t ht

/-- C7 witness: on the concrete cross-field write, the matched tag's
fingerprint is the fingerprint of the written leaf value. -/
theorem C7_witness :
    (⟨create_fingerprint (.str "same@example.com"), "User.email",
        "contact.email", "User email address", some "u1", "model:User",
        some "same@example.com", ""⟩ : DataTag).fingerprint ∈
      (flatten_payload (.dict [("note", .str "same@example.com")])).map
        (fun q => create_fingerprint q.2) :=
  C7_storage_match_fingerprint_only.2.1 (runTrace c7TraceB)
    (.dict [("note", .str "same@example.com")])
    (runTrace_inv c7TraceB).1 _ (by decide)

/-- `InputFieldConfig` (runtime_tracking/config.py). -/
structure InputFieldConfig where
  category : String
  description : String
  pii : Bool := true
deriving DecidableEq, Repr

/-- The engine operations performed by `_rt_before_request`
(runtime_tracking/flask_hooks.py): start the request context, then for
**every** key of the extracted payload call `register_input` — with the
configured description/category when the field is configured, and
`"Form field <key>"` / `"unknown"` otherwise — and finally record the
collection event. -/
def rtBeforeRequestOps (input_fields : List (String × InputFieldConfig))
    (payload : List (String × PyVal)) (now request_id : String)
    (user_id : Option String) (path method : String)
    (client_ip : Option String) : List Op :=
  Op.startRequest request_id user_id path method client_ip ::
  (payload.map (fun kv =>
    Op.registerInput now kv.1
      (match assocFind input_fields kv.1 with
       | some c => c.description
       | Option.none => "Form field " ++ kv.1)
      (match assocFind input_fields kv.1 with
       | some c => c.category
       | Option.none => "unknown")
      kv.2 user_id ("HTTP " ++ method ++ " " ++ path))) ++
  [Op.recordCollection now payload]

/-- The fingerprint `k` has an entry in the active request context. -/
def ctxHasKey (st : TrackerState) (k : String) : Prop :=
  ∃ c, st.ctx = some c ∧ k ∈ c.tags_by_fingerprint.map Prod.fst

theorem dictSet_keys {β : Type} (m : List (String × β)) (k : String) (v : β) :
    (dictSet m k v).map Prod.fst =
      if m.any (fun p => decide (p.1 = k)) then m.map Prod.fst
      else m.map Prod.fst ++ [k] := by
  unfold dictSet
  by_cases hin : m.any (fun p => decide (p.1 = k))
  · rw [if_pos hin, if_pos hin, List.map_map]
    refine List.map_congr_left ?_
    intro p _
    by_cases hk : p.1 = k
    · simp [hk]
    · simp [hk]
  · rw [if_neg hin, if_neg hin, List.map_append]
    rfl

theorem dictSet_key_present {β : Type} (m : List (String × β)) (k : String) (v : β) :
    k ∈ (dictSet m k v).map Prod.fst := by
  rw [dictSet_keys]
  by_cases hin : m.any (fun p => decide (p.1 = k))
  · rw [if_pos hin]
    obtain ⟨p, hp, hd⟩ := List.any_eq_true.mp hin
    have : p.1 = k := of_decide_eq_true hd
    exact this ▸ List.mem_map_of_mem Prod.fst hp
  · rw [if_neg hin]
    exact List.mem_append_right _ (List.mem_singleton.mpr rfl)

theorem dictSet_key_preserved {β : Type} (m : List (String × β)) (k k' : String)
    (v : β) (h : k' ∈ m.map Prod.fst) : k' ∈ (dictSet m k v).map Prod.fst := by
  rw [dictSet_keys]
  by_cases hin : m.any (fun p => decide (p.1 = k))
  · rw [if_pos hin]; exact h
  · rw [if_neg hin]; exact List.mem_append_left _ h

theorem registerInput_ctxKey_preserved (st : TrackerState)
    (now f d c : String) (v : PyVal) (o : Option String) (s k : String)
    (h : ctxHasKey st k) :
    ctxHasKey (step st (.registerInput now f d c v o s)) k := by
  obtain ⟨ctx, hctx, hk⟩ := h
  show ctxHasKey ((registerInputRT st now f d c v o s).1) k
  rw [show (registerInputRT st now f d c v o s) =
    (match st.ctx with
     | some ctx =>
        let res := ctx.register_tag f c d v o s now
        ({ st with ctx := some res.1,
                   registry := st.registry.register res.2,
                   fingerprints := upsertFingerprint st.fingerprints res.2 Option.none },
         res.2)
     | Option.none =>
        let tag : DataTag := ⟨create_fingerprint v, f, c, d, o, s,
          some ((strPy v).take 100), now⟩
        ({ st with registry := st.registry.register tag,
                   fingerprints := upsertFingerprint st.fingerprints tag Option.none },
         tag)) from rfl, hctx]
  exact ⟨_, rfl, dictSet_key_preserved _ _ _ _ hk⟩

theorem registerInput_ctxKey_added (st : TrackerState)
    (now f d c : String) (v : PyVal) (o : Option String) (s : String)
    (ctx : RequestContext) (hctx : st.ctx = some ctx) :
    ctxHasKey (step st (.registerInput now f d c v o s))
      (create_fingerprint v) := by
  show ctxHasKey ((registerInputRT st now f d c v o s).1) _
  rw [show (registerInputRT st now f d c v o s) =
    (match st.ctx with
     | some ctx =>
        let res := ctx.register_tag f c d v o s now
        ({ st with ctx := some res.1,
                   registry := st.registry.register res.2,
                   fingerprints := upsertFingerprint st.fingerprints res.2 Option.none },
         res.2)
     | Option.none =>
        let tag : DataTag := ⟨create_fingerprint v, f, c, d, o, s,
          some ((strPy v).take 100), now⟩
        ({ st with registry := st.registry.register tag,
                   fingerprints := upsertFingerprint st.fingerprints tag Option.none },
         tag)) from rfl, hctx]
  exact ⟨_, rfl, dictSet_key_present _ _ _⟩

theorem recordCollection_ctxKey_preserved (st : TrackerState)
    (now : String) (data : List (String × PyVal)) (k : String)
    (h : ctxHasKey st k) :
    ctxHasKey (step st (.recordCollection now data)) k := by
  obtain ⟨ctx, hctx, hk⟩ := h
  show ctxHasKey (recordCollectionRT st now data) k
  refine ⟨ctx, ?_, hk⟩
  unfold recordCollectionRT
  rw [recordEventRT_ctx]
  exact hctx

theorem regOps_ctxKey_preserved (cfg : List (String × InputFieldConfig))
    (now : String) (uid : Option String) (path method : String) :
    ∀ (pl : List (String × PyVal)) (st : TrackerState) (k : String),
    ctxHasKey st k →
    ctxHasKey (runFrom st (pl.map (fun kv =>
      Op.registerInput now kv.1
        (match assocFind cfg kv.1 with
         | some c => c.description
         | Option.none => "Form field " ++ kv.1)
        (match assocFind cfg kv.1 with
         | some c => c.category
         | Option.none => "unknown")
        kv.2 uid ("HTTP " ++ method ++ " " ++ path)))) k := by
  intro pl
  induction pl with
  | nil => intro st k h; exact h
  | cons kv rest ih =>
    intro st k h
    exact ih _ k (registerInput_ctxKey_preserved st _ _ _ _ kv.2 _ _ k h)

theorem regOps_ctxKey_added (cfg : List (String × InputFieldConfig))
    (now : String) (uid : Option String) (path method : String) :
    ∀ (pl : List (String × PyVal)) (st : TrackerState) (ctx : RequestContext),
    st.ctx = some ctx →
    ∀ kv ∈ pl,
    ctxHasKey (runFrom st (pl.map (fun kv =>
      Op.registerInput now kv.1
        (match assocFind cfg kv.1 with
         | some c => c.description
         | Option.none => "Form field " ++ kv.1)
        (match assocFind cfg kv.1 with
         | some c => c.category
         | Option.none => "unknown")
        kv.2 uid ("HTTP " ++ method ++ " " ++ path))))
      (create_fingerprint kv.2) := by
  intro pl
  induction pl with
  | nil => intro st ctx hctx kv hkv; exact absurd hkv (List.not_mem_nil kv)
  | cons kv0 rest ih =>
    intro st ctx hctx kv hkv
    have hadded := registerInput_ctxKey_added st now kv0.1
      (match assocFind cfg kv0.1 with
       | some c => c.description
       | Option.none => "Form field " ++ kv0.1)
      (match assocFind cfg kv0.1 with
       | some c => c.category
       | Option.none => "unknown")
      kv0.2 uid ("HTTP " ++ method ++ " " ++ path) ctx hctx
    rcases List.mem_cons.mp hkv with heq | hmem
    · subst heq
      exact regOps_ctxKey_preserved cfg now uid path method rest _ _ hadded
    · obtain ⟨ctx1, hctx1, _⟩ := hadded
      exact ih _ ctx1 hctx1 kv hmem

/-- C8 counterexample: with `"email"` the only configured input field, a
request whose payload holds the unconfigured field `"internal_note"` with
the empty-string value still registers a tag for it, with category
`"unknown"` and description `"Form field internal_note"` — the collector
never checks the configuration map or value emptiness before tagging. -/
theorem C8_counterexample :
    ((runTrace (rtBeforeRequestOps
        [("email", ⟨"contact.email", "Email address", true⟩)]
        [("internal_note", .str "")] "" "req-1" Option.none "/" "POST"
        Option.none)).ctx.map
      (fun c => c.tags_by_fingerprint.map
        (fun p => (p.2.field, p.2.category, p.2.description)))) =
      some [("internal_note", "unknown", "Form field internal_note")] := rfl

/-- C8 (amended): the ingress collector registers a DataTag for **every**
field of the extracted payload — configured or not, empty or not; a
configured field gets its configured category/description, an unconfigured
one gets category `"unknown"` and description `"Form field <key>"`. After
the hook runs, the context map holds an entry under the fingerprint of
every payload value. -/
theorem C8_ingress_tags_every_field :
    (∀ (cfg : List (String × InputFieldConfig))
        (payload : List (String × PyVal)) (now rid : String)
        (uid : Option String) (path method : String) (ip : Option String),
      ∀ kv ∈ payload,
        ctxHasKey (runTrace (rtBeforeRequestOps cfg payload now rid uid path
          method ip)) (create_fingerprint kv.2)) ∧
    ((runTrace (rtBeforeRequestOps [] [("x1", .str "")] "" "r" Option.none
        "/" "GET" Option.none)).ctx.map
      (fun c => c.tags_by_fingerprint.map
        (fun p => (p.2.field, p.2.category, p.2.description)))) =
      some [("x1", "unknown", "Form field x1")] := by
  refine ⟨?_, rfl⟩
  intro cfg payload now rid uid path method ip kv hkv
  unfold runTrace rtBeforeRequestOps
  rw [show ∀ (a : Op) (l : List Op), a :: l = [a] ++ l from fun a l => rfl,
    runFrom, List.foldl_append, List.foldl_append]
  have hstart : (List.foldl step initState
      [Op.startRequest rid uid path method ip]).ctx =
      some ⟨rid, uid, path, method, ip, []⟩ := rfl
  have hkey := regOps_ctxKey_added cfg now uid path method payload _ _ hstart kv hkv
  obtain ⟨c, hc, hk⟩ := hkey
  have := recordCollection_ctxKey_preserved _ now payload _ ⟨c, hc, hk⟩
  exact this

/-- C8 witness: applied to a concrete two-field payload, the second field's
value fingerprint is present in the context map. -/
theorem C8_witness :
    ctxHasKey (runTrace (rtBeforeRequestOps
        [("email", ⟨"contact.email", "Email address", true⟩)]
        [("email", .str "alice@example.com"), ("note", .str "hi")] ""
        "req-9" (some "u9") "/signup" "POST" Option.none))
      (create_fingerprint (.str "hi")) :=
  C8_ingress_tags_every_field.1
    [("email", ⟨"contact.email", "Email address", true⟩)]
    [("email", .str "alice@example.com"), ("note", .str "hi")] "" "req-9"
    (some "u9") "/signup" "POST" Option.none ("note", .str "hi")
    (List.mem_cons_of_mem _ (List.mem_singleton.mpr rfl))

/-- The two-registration trace of C10: the same scalar value is registered
twice in one request with different metadata. -/
def c10Trace (x : String) (f1 c1 d1 s1 n1 f2 c2 d2 s2 n2 rid path method : String)
    (uid o1 o2 ip : Option String) : List Op :=
  [.startRequest rid uid path method ip,
   .registerInput n1 f1 d1 c1 (.str x) o1 s1,
   .registerInput n2 f2 d2 c2 (.str x) o2 s2]

/-- C10: when the same value is registered twice with different metadata,
the stores diverge — `GlobalRegistry.register` is insert-if-absent so the
registry keeps returning the first tag, `RequestContext.register_tag`
overwrites so the context returns the last tag, and since `match_payload`
consults the context before the registry (deduplicating by fingerprint,
first hit kept), the newer tag shadows the older one within the request. -/
theorem C10_reregistration_shadowing :
    (∀ (t1 t2 : DataTag), t2.fingerprint = t1.fingerprint →
      (((GlobalRegistry.mk []).register t1).register t2).match_fingerprints
        [t1.fingerprint] = [t1]) ∧
    (∀ (rid : String) (uid : Option String) (path method : String)
        (ip : Option String) (f1 c1 d1 s1 n1 f2 c2 d2 s2 n2 : String)
        (o1 o2 : Option String) (v : PyVal),
      ((((RequestContext.mk rid uid path method ip []).register_tag
          f1 c1 d1 v o1 s1 n1).1.register_tag f2 c2 d2 v o2 s2 n2).1).find_tags
        [create_fingerprint v] =
      [((((RequestContext.mk rid uid path method ip []).register_tag
          f1 c1 d1 v o1 s1 n1).1.register_tag f2 c2 d2 v o2 s2 n2)).2]) ∧
    (∀ (x : String) (f1 c1 d1 s1 n1 f2 c2 d2 s2 n2 rid path method : String)
        (uid o1 o2 ip : Option String),
      matchPayloadRT
        (runTrace (c10Trace x f1 c1 d1 s1 n1 f2 c2 d2 s2 n2 rid path method
          uid o1 o2 ip)) (.dict [("k", .str x)]) =
        [⟨create_fingerprint (.str x), f2, c2, d2, o2, s2, some (x.take 100), n2⟩] ∧
      (runTrace (c10Trace x f1 c1 d1 s1 n1 f2 c2 d2 s2 n2 rid path method
          uid o1 o2 ip)).registry.match_fingerprints
        [create_fingerprint (.str x)] =
        [⟨create_fingerprint (.str x), f1, c1, d1, o1, s1, some (x.take 100), n1⟩]) := by
  refine ⟨?_, ?_, ?_⟩
  · intro t1 t2 h
    simp [GlobalRegistry.register, GlobalRegistry.match_fingerprints, assocFind, h]
  · intro rid uid path method ip f1 c1 d1 s1 n1 f2 c2 d2 s2 n2 o1 o2 v
    simp [RequestContext.register_tag, RequestContext.find_tags, dictSet, assocFind]
  · intro x f1 c1 d1 s1 n1 f2 c2 d2 s2 n2 rid path method uid o1 o2 ip
    have hrun : runTrace (c10Trace x f1 c1 d1 s1 n1 f2 c2 d2 s2 n2 rid path
        method uid o1 o2 ip) =
      ⟨⟨[(create_fingerprint (.str x),
          ⟨create_fingerprint (.str x), f1, c1, d1, o1, s1, some (x.take 100), n1⟩)]⟩,
       some ⟨rid, uid, path, method, ip,
          [(create_fingerprint (.str x),
            ⟨create_fingerprint (.str x), f2, c2, d2, o2, s2, some (x.take 100), n2⟩)]⟩,
       [],
       [⟨create_fingerprint (.str x), Option.none, n2, f2, c2, d2, o2⟩],
       0⟩ := by
      simp [c10Trace, runTrace, runFrom, step, registerInputRT,
        RequestContext.register_tag, GlobalRegistry.register, dictSet,
        initState, upsertFingerprint, strPy]
    rw [hrun]
    constructor
    · simp [matchPayloadRT, flatten_payload, flattenDictEntries,
        RequestContext.find_tags, GlobalRegistry.match_fingerprints, assocFind,
        dedupeTags]
    · simp [GlobalRegistry.match_fingerprints, assocFind]

/-- C10 witness: the registry keeps the first of two same-fingerprint tags
at a concrete fingerprint. -/
theorem C10_witness :
    (((GlobalRegistry.mk []).register
        ⟨"fp-1", "email", "contact.email", "first", Option.none, "s1",
          Option.none, ""⟩).register
        ⟨"fp-1", "email", "personal.contact", "second", Option.none, "s2",
          Option.none, ""⟩).match_fingerprints ["fp-1"] =
      [⟨"fp-1", "email", "contact.email", "first", Option.none, "s1",
        Option.none, ""⟩] :=
  C10_reregistration_shadowing.1
    ⟨"fp-1", "email", "contact.email", "first", Option.none, "s1",
      Option.none, ""⟩
    ⟨"fp-1", "email", "personal.contact", "second", Option.none, "s2",
      Option.none, ""⟩ rfl

/-! ### The sqlite audit store (runtime_tracking/storage.py) -/

namespace Store

/-- Unescape the character after a backslash in a JSON string literal. -/
def unescapeChar (c : Char) : Char :=
  if c = 'n' then '\n'
  else if c = 't' then '\t'
  else if c = 'r' then '\r'
  else c

/-- Skip JSON whitespace. -/
def skipWs : List Char → List Char
  | c :: rest =>
      if c = ' ' ∨ c = '\n' ∨ c = '\t' ∨ c = '\r' then skipWs rest else c :: rest
  | [] => []

/-- Parse the remainder of a JSON string literal (after the opening quote). -/
def parseStrChars : List Char → Option (List Char × List Char)
  | '"' :: rest => some ([], rest)
  | '\\' :: c :: rest =>
      (parseStrChars rest).map (fun p => (unescapeChar c :: p.1, p.2))
  | c :: rest => (parseStrChars rest).map (fun p => (c :: p.1, p.2))
  | [] => Option.none

/-- Digits of a JSON integer to its value. -/
def digitsToNat (ds : List Char) : Nat :=
  ds.foldl (fun acc c => acc * 10 + (c.toNat - '0'.toNat)) 0

mutual
/-- Recursive-descent `json.loads` value parser (fuel-indexed; the fuel is
sized to the input so it never runs out on real inputs). Floats are not
needed by this development's inputs and are not recognised. -/
def parseVal : Nat → List Char → Option (PyVal × List Char)
  | 0, _ => Option.none
  | fuel + 1, s =>
    match skipWs s with
    | 'n' :: 'u' :: 'l' :: 'l' :: rest => some (.none, rest)
    | 't' :: 'r' :: 'u' :: 'e' :: rest => some (.bool true, rest)
    | 'f' :: 'a' :: 'l' :: 's' :: 'e' :: rest => some (.bool false, rest)
    | '"' :: rest =>
        (parseStrChars rest).map (fun p => (.str (String.mk p.1), p.2))
    | '[' :: rest =>
        (parseArr fuel rest).map (fun p => (.list p.1, p.2))
    | '{' :: rest =>
        (parseObj fuel rest).map (fun p => (.dict p.1, p.2))
    | '-' :: rest =>
        let sp := rest.span (fun c => c.isDigit)
        if sp.1.isEmpty then Option.none
        else some (.int (-(digitsToNat sp.1 : Int)), sp.2)
    | c :: rest =>
        if c.isDigit then
          let sp := (c :: rest).span (fun c => c.isDigit)
          some (.int (digitsToNat sp.1 : Int), sp.2)
        else Option.none
    | [] => Option.none

/-- Parse the elements of a JSON array (after the opening bracket). -/
def parseArr : Nat → List Char → Option (List PyVal × List Char)
  | 0, _ => Option.none
  | fuel + 1, s =>
    match skipWs s with
    | ']' :: rest => some ([], rest)
    | other =>
      match parseVal fuel other with
      | Option.none => Option.none
      | some (v, rest1) =>
        match skipWs rest1 with
        | ',' :: rest2 =>
            (parseArr fuel rest2).map (fun p => (v :: p.1, p.2))
        | ']' :: rest2 => some ([v], rest2)
        | _ => Option.none

/-- Parse the members of a JSON object (after the opening brace). -/
def parseObj : Nat → List Char → Option (List (String × PyVal) × List Char)
  | 0, _ => Option.none
  | fuel + 1, s =>
    match skipWs s with
    | '}' :: rest => some ([], rest)
    | '"' :: rest =>
      match parseStrChars rest with
      | Option.none => Option.none
      | some (key, rest1) =>
        match skipWs rest1 with
        | ':' :: rest2 =>
          match parseVal fuel rest2 with
          | Option.none => Option.none
          | some (v, rest3) =>
            match skipWs rest3 with
            | ',' :: rest4 =>
                (parseObj fuel rest4).map
                  (fun p => ((String.mk key, v) :: p.1, p.2))
            | '}' :: rest4 => some ([(String.mk key, v)], rest4)
            | _ => Option.none
        | _ => Option.none
    | _ => Option.none
end

/-- `json.loads`: parse one JSON value and require only whitespace after
it; `Option.none` models a raised `JSONDecodeError`. -/
def jsonLoads (s : String) : Option PyVal :=
  match parseVal (2 * s.length + 2) s.data with
  | some (v, rest) => if skipWs rest = [] then some v else Option.none
  | Option.none => Option.none

/-- `DataTag.as_dict` (runtime_tracking/events.py): the dataclass fields in
declaration order. -/
def tagAsDict (t : RT.DataTag) : PyVal :=
  .dict [("fingerprint", .str t.fingerprint), ("field", .str t.field),
         ("category", .str t.category), ("description", .str t.description),
         ("owner", RT.optStr t.owner), ("source", .str t.source),
         ("preview", RT.optStr t.preview), ("created_at", .str t.created_at)]

/-- A row of the sqlite `events` table, in the column order of the schema
and of the SELECT in `fetch_events`. -/
structure EventRow where
  id : String
  created_at : String
  event_type : String
  actor : String
  target : String
  payload : String
  request_id : Option String
  user_id : Option String
  matched_tags : String
  extras : String
deriving DecidableEq, Repr

/-- The row `ProvenanceStorage.record_event` inserts: payload, matched tags
and extras are serialised with `json.dumps` (no key sorting). -/
def rowOfEvent (e : RT.ProvenanceEvent) : EventRow :=
  ⟨e.event_id, e.created_at, e.event_type, e.actor, e.target,
   jsonDumps false e.payload, e.request_id, e.user_id,
   jsonDumps false (.list (e.matched_tags.map tagAsDict)),
   jsonDumps false e.extras⟩

/-- `ProvenanceStorage.record_event` with the sqlite INSERT+commit outcome
made explicit (`Option.none` = success, `some err` = the sqlite exception).
The code makes a single attempt with no handler: on failure the exception
propagates to the caller. -/
def recordEventPersist (db : List EventRow) (e : RT.ProvenanceEvent)
    (outcome : Option String) : Except String (List EventRow) :=
  match outcome with
  | Option.none => .ok (db ++ [rowOfEvent e])
  | some err => .error err

/-- Modelled from the spec: "Persistence errors writing to the Audit Store
are retried once, then logged and dropped; they must never propagate to the
wrapped operation." — the write is attempted, retried once on failure, and
dropped (log only) if the retry also fails; no error is ever surfaced. This
behaviour exists nowhere in runtime_tracking/storage.py; it is stated here
only to exhibit the divergence. -/
def recordEventPersistSpec (db : List EventRow) (e : RT.ProvenanceEvent)
    (outcome1 outcome2 : Option String) : List EventRow :=
  match outcome1 with
  | Option.none => db ++ [rowOfEvent e]
  | some _ =>
    match outcome2 with
    | Option.none => db ++ [rowOfEvent e]
    | some _ => db

/-- The record dict built by `ProvenanceStorage.fetch_events` for one row.
Mirrors the code's indices: `payload` is parsed from `row[4]` (the target
column!), `request_id` receives `row[5]` (the payload text) and `user_id`
receives `row[6]` (the request_id column). -/
structure FetchedRecord where
  event_id : String
  created_at : String
  event_type : String
  actor : String
  target : String
  payload : PyVal
  request_id : String
  user_id : Option String
  matched_tags : PyVal
  extras : PyVal

/-- Build the fetched record list, raising (as `.error`) on the first
`json.loads` failure, exactly as the Python loop would. -/
def fetchRows : List EventRow → Except String (List FetchedRecord)
  | [] => .ok []
  | r :: rest =>
    match (if r.target = "" then some (PyVal.dict []) else jsonLoads r.target) with
    | Option.none => .error "JSONDecodeError"
    | some payload =>
      match (if r.matched_tags = "" then some (PyVal.list [])
             else jsonLoads r.matched_tags) with
      | Option.none => .error "JSONDecodeError"
      | some matched =>
        match (if r.extras = "" then some (PyVal.dict [])
               else jsonLoads r.extras) with
        | Option.none => .error "JSONDecodeError"
        | some extras =>
          (fetchRows rest).map
            (fun recs =>
              ⟨r.id, r.created_at, r.event_type, r.actor, r.target, payload,
               r.payload, r.request_id, matched, extras⟩ :: recs)

/-- `ProvenanceStorage.fetch_events(limit, event_type)`: filter by event
type when given, order by `created_at` descending, apply the limit, then
build the record dicts. -/
def fetch_events (db : List EventRow) (limit : Nat)
    (event_type : Option String) : Except String (List FetchedRecord) :=
  let rows :=
    match event_type with
    | some t => db.filter (fun r => decide (r.event_type = t))
    | Option.none => db
  let ordered := sortBy (fun a b => strLe b.created_at a.created_at) rows
  fetchRows (ordered.take limit)

end Store

namespace Store

/-- A representative audit event to persist: the collection event of a
signup request. -/
def c9Event : RT.ProvenanceEvent :=
  { event_type := "DATA_COLLECTION", actor := "flask.request",
    target := "application", payload := .dict [("email", .str "a@x.com")],
    request_id := some "r-1", user_id := some "u-1", matched_tags := [],
    extras := .dict [], event_id := "ev-1",
    created_at := "2024-01-01T00:00:00" }

/-- The same event with a target that happens to be valid JSON, to expose
the column shift without the crash. -/
def c9EventB : RT.ProvenanceEvent :=
  { c9Event with target := "null", event_id := "ev-2" }

/-- C9: `fetch_events` does not round-trip what `record_event` stored. The
record's `payload` is parsed from `row[4]` — the **target** column — so a
fetch after recording an ordinary event (target `"application"`) raises a
`JSONDecodeError`; and when the target happens to parse as JSON, the
returned record has `payload` equal to the parsed target, `request_id`
equal to the payload's JSON text, and `user_id` equal to the recorded
`request_id` — the recorded `user_id` (column 7) is never returned at
all. -/
theorem C9_fetch_events_column_shift :
    recordEventPersist [] c9Event Option.none = .ok [rowOfEvent c9Event] ∧
    fetch_events [rowOfEvent c9Event] 100 Option.none = .error "JSONDecodeError" ∧
    fetch_events [rowOfEvent c9EventB] 100 Option.none =
      .ok [⟨"ev-2", "2024-01-01T00:00:00", "DATA_COLLECTION", "flask.request",
            "null", .none, jsonDumps false (.dict [("email", .str "a@x.com")]),
            some "r-1",
            .list [], .dict []⟩] := by
  refine ⟨rfl, rfl, rfl⟩

/-- The first-attempt sqlite failure used in the C6 counterexample. -/
def c6FailOutcome : Option String := some "disk I/O error"

/-- C6 counterexample: a persistence error on the single INSERT attempt
propagates out of `record_event` unchanged — it is not retried and not
dropped — whereas the spec's retry-once-then-drop policy
(`recordEventPersistSpec`) would have recovered on the second attempt. -/
theorem C6_counterexample :
    recordEventPersist [] c9Event c6FailOutcome = .error "disk I/O error" ∧
    recordEventPersistSpec [] c9Event c6FailOutcome Option.none =
      [rowOfEvent c9Event] := by
  exact ⟨rfl, rfl⟩

/-- C6 (amended): `record_event` makes exactly one attempt: on success the
row is appended; on a sqlite error the exception propagates as-is to the
caller — there is no retry, no logging, and no dropping, so a persistence
error reaches the wrapped operation's instrumentation layer. -/
theorem C6_record_event_no_retry :
    (∀ (db : List EventRow) (e : RT.ProvenanceEvent) (err : String),
      recordEventPersist db e (some err) = .error err) ∧
    (∀ (db : List EventRow) (e : RT.ProvenanceEvent),
      recordEventPersist db e Option.none = .ok (db ++ [rowOfEvent e])) := by
  exact ⟨fun db e err => rfl, fun db e => rfl⟩

end Store

/-! ### The egress interceptor (runtime_tracking/requests_patch.py) -/

namespace Requests

/-- Scan for the first `://` of a url. -/
def dropScheme : List Char → Option (List Char)
  | ':' :: '/' :: '/' :: rest => some rest
  | [] => Option.none
  | _ :: rest => dropScheme rest

/-- `urlparse(url).hostname` for the absolute http(s) urls this application
produces: the lowercased authority up to the first `/`, `:`, `?` or `#`;
`None` when the url has no scheme. -/
def urlHostname (url : String) : Option String :=
  match dropScheme url.data with
  | Option.none => Option.none
  | some rest =>
      let host := rest.takeWhile (fun c => !(c = '/' || c = ':' || c = '?' || c = '#'))
      if host.isEmpty then Option.none else some (String.mk (host.map Char.toLower))

/-- The outcome of the wrapped `Session.request` call. -/
inductive CallOutcome where
  | success (status : Int)
  | failure (exc : String)

/-- `instrumented_request` (runtime_tracking/requests_patch.py), with
Python's `try/except/finally` semantics made explicit. The `payload_dict`
argument is the result of `_normalise_payload(kwargs)`. The result is the
value delivered to the caller: `.ok (some status)` = the response,
`.ok Option.none` = `None` (the bare `return` inside `finally` discarded the
pending response or swallowed the in-flight exception), `.error exc` = the
exception re-raised. When `ignored_hosts` is non-empty and the url's
hostname is on it, the `finally` block executes `return` — otherwise it
records the share event (status `None` when the call raised) and lets the
pending return/raise proceed. -/
def instrumented_request (st : RT.TrackerState) (ignored_hosts : List String)
    (now method url : String) (payload_dict : List (String × PyVal))
    (outcome : CallOutcome) : RT.TrackerState × Except String (Option Int) :=
  let hit : Bool := !ignored_hosts.isEmpty &&
    (match urlHostname url with
     | some h => ignored_hosts.contains h
     | Option.none => false)
  match outcome with
  | .success status =>
      if hit then (st, .ok Option.none)
      else (RT.recordShareEventRT st now method url payload_dict (some status),
            .ok (some status))
  | .failure exc =>
      if hit then (st, .ok Option.none)
      else (RT.recordShareEventRT st now method url payload_dict Option.none,
            .error exc)

/-- C4: the `finally` block of `instrumented_request` contains a bare
`return` on the ignored-host path, which in Python discards the pending
control flow. Consequences, evaluated on concrete inputs: a wrapped call
that raises against an ignored host returns `None` to the caller — the
exception is swallowed, contradicting both the claim and the code's own
`raise`; for a non-ignored host the exception is recorded as a `DATA_SHARE`
event with status `None` and then re-raised as the claim states; and even a
successful call to an ignored host loses its response, returning `None`. -/
theorem C4_finally_return_swallows :
    (instrumented_request RT.initState ["partner.example"] "" "POST"
        "https://partner.example/api" [("user", .str "alice@example.com")]
        (.failure "ConnectionError")).2 = .ok Option.none ∧
    (instrumented_request RT.initState [] "" "POST" "https://api.other.com/x"
        [("user", .str "alice@example.com")]
        (.failure "ConnectionError")).2 = .error "ConnectionError" ∧
    ((instrumented_request RT.initState [] "" "POST" "https://api.other.com/x"
        [("user", .str "alice@example.com")]
        (.failure "ConnectionError")).1.events.map
      (fun e => (e.event_type, e.target,
        (Store.jsonLoads (Store.rowOfEvent e).payload).isSome))) =
      [("DATA_SHARE", "https://api.other.com/x", true)] ∧
    (instrumented_request RT.initState ["partner.example"] "" "GET"
        "https://partner.example/api" [] (.success 200)).2 = .ok Option.none := by
  refine ⟨rfl, rfl, rfl, rfl⟩

end Requests

/-! ### The storage interceptor hook (runtime_tracking/sqlalchemy_patch.py) -/

namespace SAPatch

/-- `FieldConfig` (runtime_tracking/config.py). -/
structure FieldConfig where
  category : String
  description : String
  pii : Bool := true
  owner_attribute : Option String := Option.none
deriving DecidableEq, Repr

/-- `ModelConfig` (runtime_tracking/config.py). -/
structure ModelConfig where
  fields : List (String × FieldConfig)
deriving DecidableEq, Repr

/-- A SQLAlchemy entity as seen through `getattr`: attributes that raise
`AttributeError` are simply absent from the list. -/
structure DBInstance where
  className : String
  attrs : List (String × PyVal)

/-- `getattr(obj, name)`: `Option.none` models a raised `AttributeError`. -/
def getattrOf (obj : DBInstance) (name : String) : Option PyVal :=
  RT.assocFind obj.attrs name

/-- `value is None`. -/
def isNonePy : PyVal → Bool
  | .none => true
  | _ => false

/-- One call into the tracker whose persistence layer may raise: consume
the next sqlite outcome (`Option.none` = success, `some err` = the
exception, which the hook has no handler for). -/
def trackerCall : List (Option String) → Except String (List (Option String))
  | [] => .ok []
  | Option.none :: rest => .ok rest
  | some err :: _ => .error err

/-- The field loop of `_process_instance`: a missing attribute
(`AttributeError`) is caught and the field skipped; a present value is
added to `field_values`; a non-`None` pii value triggers
`tracker.register_input`, whose storage upsert may raise — and nothing in
the hook catches that. The owner `getattr` is likewise wrapped in its own
`except AttributeError` and cannot fail outward, so it contributes no
outcome. -/
def processFields (obj : DBInstance) :
    List (String × FieldConfig) → List (String × PyVal) →
    List (Option String) →
    Except String (List (String × PyVal) × List (Option String))
  | [], fv, oracle => .ok (fv, oracle)
  | (fname, fcfg) :: rest, fv, oracle =>
    match getattrOf obj fname with
    | Option.none => processFields obj rest fv oracle
    | some value =>
      let fv' := fv ++ [(fname, value)]
      if isNonePy value then processFields obj rest fv' oracle
      else if fcfg.pii then
        match trackerCall oracle with
        | .error e => .error e
        | .ok oracle' => processFields obj rest fv' oracle'
      else processFields obj rest fv' oracle

/-- `_process_instance`: untracked models are ignored; otherwise run the
field loop and then `tracker.record_storage_event`, whose event INSERT may
raise — unhandled. An `.error` here propagates out of the `before_flush`
listener and aborts the flush. -/
def processInstance (tracked : List (String × ModelConfig)) (obj : DBInstance)
    (oracle : List (Option String)) : Except String (List (Option String)) :=
  match RT.assocFind tracked obj.className with
  | Option.none => .ok oracle
  | some mcfg =>
    match processFields obj mcfg.fields [] oracle with
    | .error e => .error e
    | .ok (_, oracle') => trackerCall oracle'

/-- Process a list of session objects in order, stopping at the first
exception, as the Python loop would. -/
def processList (tracked : List (String × ModelConfig)) :
    List DBInstance → List (Option String) →
    Except String (List (Option String))
  | [], oracle => .ok oracle
  | obj :: rest, oracle =>
    match processInstance tracked obj oracle with
    | .error e => .error e
    | .ok oracle' => processList tracked rest oracle'

/-- `_before_flush`: the new objects, then the modified dirty objects
(`dirtyObjs` stands for the dirty set already filtered by
`session.is_modified`). An `.error` result is an exception escaping the
listener: the flush — and hence the underlying database write — is
aborted. -/
def beforeFlush (tracked : List (String × ModelConfig))
    (newObjs dirtyObjs : List DBInstance) (oracle : List (Option String)) :
    Except String (List (Option String)) :=
  match processList tracked newObjs oracle with
  | .error e => .error e
  | .ok oracle' => processList tracked dirtyObjs oracle'

/-- The tracked-model configuration used in the C5 scenario. -/
def c5Config : List (String × ModelConfig) :=
  [("User", ⟨[("email",
      ⟨"contact.email", "User email address", true, some "email"⟩)]⟩)]

/-- A `User` row being inserted. -/
def c5User : DBInstance := ⟨"User", [("email", .str "alice@example.com")]⟩

/-- C5 counterexample: an exception raised inside the interceptor (here the
tag-registration write failing with "database is locked") is not swallowed
anywhere — it escapes `_before_flush`, aborting the flush, so the
underlying database write does **not** proceed to commit. -/
theorem C5_counterexample :
    beforeFlush c5Config [c5User] [] [some "database is locked"] =
      .error "database is locked" := rfl

/-- C5 (amended): inside the storage interceptor only `AttributeError`
raised while reading an entity attribute is caught (the field is skipped);
any exception from tag registration or event recording propagates out of
the `before_flush` listener and can prevent the underlying write from
committing. Conjuncts: an untracked entity never fails; a missing tracked
attribute is skipped without aborting (only the storage-event write
consumes an outcome); and the first tracker-call failure propagates
verbatim. -/
theorem C5_flush_hook_exceptions_propagate :
    (∀ (cn : String) (attrs : List (String × PyVal))
        (oracle : List (Option String)),
      RT.assocFind c5Config cn = Option.none →
      processInstance c5Config ⟨cn, attrs⟩ oracle = .ok oracle) ∧
    (∀ (rest : List (Option String)),
      processInstance c5Config ⟨"User", []⟩ (Option.none :: rest) = .ok rest) ∧
    (∀ (err email : String) (rest : List (Option String)),
      processInstance c5Config ⟨"User", [("email", .str email)]⟩
        (some err :: rest) = .error err) := by
  refine ⟨?_, fun rest => rfl, fun err email rest => rfl⟩
  intro cn attrs oracle h
  simp [processInstance, h]

/-- C5 witness: an `Expense` row is untracked by `c5Config` and never
fails. -/
theorem C5_witness :
    processInstance c5Config ⟨"Expense", [("amount", .int 12)]⟩
      [some "database is locked"] = .ok [some "database is locked"] :=
  C5_flush_hook_exceptions_propagate.1 "Expense" [("amount", .int 12)]
    [some "database is locked"] (by decide)
